import Mathlib

/-!
Verification of the LV2 plugin-descriptor validation and normalization engine
(`lv2/plugin_info.py` of jack-audio-tools).

The development is a shallow embedding: the functions `_get_port_info`,
`_get_plugin_ports`, `_get_plugin_presets`, `_get_plugin_properties` and
`_get_plugin_info` are translated into pure Lean functions over explicit
record types that model the raw metadata facts the original code obtains
from the lilv library (the metadata repository is an external collaborator;
each `get_...` call is modelled as a field of a raw-input record holding the
value the call would return).

Modelling conventions:
* Python numbers (arbitrary-precision `int` and IEEE `float`) are modelled
  exactly: `Lit` is a tagged numeric literal and all arithmetic is exact
  rational arithmetic (`Rat`).  `float.is_int`-style representation tests
  (`fmod(x, 1.0) == 0.0`) become integrality of the rational (`den = 1`),
  and Python `int()` truncation toward zero becomes `Int.tdiv`.
* Python strings are Lean `String`s; the string helpers used by the code
  (strip, lower, slicing, splitting on `#`, lexicographic comparison) are
  defined over the character list so that they evaluate by kernel reduction.
  Python compares strings by code points, as the character-list order does.
* Python `list.sort` / `sorted` (a stable ascending sort) is modelled by
  `List.insertionSort`, which is also stable.
* Python exceptions that escape the function (`NameError`, `TypeError`,
  `ValueError`) are modelled with `Except PyErr`.
* Python `dict`s keyed by strings are modelled as association lists built in
  insertion order with in-place overwrite, like Python dicts.
-/

/-! ## String primitives (kernel-reducible replacements for `Substring` based ops) -/

/-- Lexicographic comparison of character lists by code point, the order
Python uses to compare strings. -/
def charListLe : List Char → List Char → Bool
  | [], _ => true
  | _ :: _, [] => false
  | a :: as, b :: bs =>
    if a.toNat < b.toNat then true
    else if b.toNat < a.toNat then false
    else charListLe as bs

/-- Python string `<=` as a decidable relation. -/
def strLe (a b : String) : Prop := charListLe a.data b.data = true

instance : DecidableRel strLe := fun _ _ => inferInstanceAs (Decidable (_ = true))

/-- Python `str.strip()` (leading and trailing whitespace removed). -/
def pyStrip (s : String) : String :=
  ⟨((s.data.dropWhile Char.isWhitespace).reverse.dropWhile Char.isWhitespace).reverse⟩

/-- Python `str.lower()`. -/
def pyLower (s : String) : String := ⟨s.data.map Char.toLower⟩

/-- Python slicing `s[:n]` for `n ≥ 0`. -/
def strTake (s : String) (n : Nat) : String := ⟨s.data.take n⟩

/-- Python slicing `s[:-n]` (drop the last `n` characters; empty if shorter). -/
def strDropRight (s : String) (n : Nat) : String := ⟨s.data.take (s.data.length - n)⟩

/-- Python `len` of a string. -/
def strLen (s : String) : Nat := s.data.length

/-- Python `str.startswith`. -/
def pyStartsWith (s pre : String) : Bool := pre.data.isPrefixOf s.data

/-- Python `s.rsplit('#', 1)[-1]`: the part after the last `#`, or the whole
string when there is none. -/
def afterLastHash (s : String) : String :=
  ⟨(s.data.reverse.takeWhile (fun c => c != '#')).reverse⟩

/-- Python `s.split('#', 1)[-1]`: the part after the first `#`, or the whole
string when there is none. -/
def afterFirstHash (s : String) : String :=
  if s.data.contains '#' then ⟨(s.data.dropWhile (fun c => c != '#')).drop 1⟩ else s

/-- Python truthiness of an optional string (`None` and `""` are falsy). -/
def truthyOpt : Option String → Bool
  | none => false
  | some s => !s.isEmpty

/-- Python `a or b` on optional strings. -/
def pyOr (a b : Option String) : Option String :=
  match a with
  | some s => if s.isEmpty then b else some s
  | none => b

/-- Python `sorted` on strings (stable ascending sort, lexicographic by code
point). -/
def pySortedStrs (l : List String) : List String := List.insertionSort strLe l

/-! ## Exact rational arithmetic helpers

`Rat.add` and `Rat.mul` are `@[irreducible]` in the library, so the embedding
uses these definitionally transparent equivalents (proved equal to `+`/`*`
below) to keep concrete runs kernel-computable. -/

/-- Exact rational addition. -/
def ratAdd (a b : Rat) : Rat := mkRat (a.num * b.den + b.num * a.den) (a.den * b.den)

/-- Exact rational multiplication. -/
def ratMul (a b : Rat) : Rat := mkRat (a.num * b.num) (a.den * b.den)

theorem ratAdd_eq (a b : Rat) : ratAdd a b = a + b := by
  unfold ratAdd
  rw [Rat.mkRat_eq_div]
  push_cast
  conv_rhs => rw [← Rat.num_div_den a, ← Rat.num_div_den b]
  have hda : ((a.den : Rat)) ≠ 0 := Nat.cast_ne_zero.mpr a.den_nz
  have hdb : ((b.den : Rat)) ≠ 0 := Nat.cast_ne_zero.mpr b.den_nz
  field_simp

theorem ratMul_eq (a b : Rat) : ratMul a b = a * b := by
  unfold ratMul
  rw [Rat.mkRat_eq_div]
  push_cast
  conv_rhs => rw [← Rat.num_div_den a, ← Rat.num_div_den b]
  have hda : ((a.den : Rat)) ≠ 0 := Nat.cast_ne_zero.mpr a.den_nz
  have hdb : ((b.den : Rat)) ≠ 0 := Nat.cast_ne_zero.mpr b.den_nz
  field_simp

/-! ## Numeric literals -/

/-- A numeric value as read from the metadata store: lilv distinguishes an
integer-valued literal (`node.is_int()`) from a float-valued one; the float
value is modelled as an exact rational. -/
inductive Lit where
  | int (n : Int)
  | flt (q : Rat)
deriving DecidableEq, Repr

/-- The lilv `is_int` representation test. -/
def Lit.is_int : Lit → Bool
  | .int _ => true
  | .flt _ => false

/-- Python `int(x)` (truncation toward zero for floats). -/
def Lit.toInt : Lit → Int
  | .int n => n
  | .flt q => q.num.tdiv q.den

/-- Python `float(x)`. -/
def Lit.toRat : Lit → Rat
  | .int n => (n : Rat)
  | .flt q => q

/-- C-style `%d` rendering of an integer-domain value. -/
def pyFmtD (q : Rat) : String := toString (q.num.tdiv (q.den : Int))

/-- C-style `%f` rendering (6 decimals) of a float-domain value; the exact
rational is rounded half away from zero, approximating the float behaviour. -/
def pyFmtF (q : Rat) : String :=
  let n := q.num * 1000000
  let r : Int := (2 * n + (if q.num < 0 then -(q.den : Int) else (q.den : Int))).tdiv (2 * (q.den : Int))
  let a := r.natAbs
  let fps := toString (a % 1000000)
  (if q.num < 0 then "-" else "") ++ toString (a / 1000000) ++ "." ++
    String.mk (List.replicate (6 - fps.length) '0') ++ fps

/-! ## Constants from the source -/

def NS_UNITS : String := "http://lv2plug.in/ns/extensions/units#"

/-- URI of `world.ns.lv2.latency`. -/
def lv2_latency : String := "http://lv2plug.in/ns/lv2core#latency"

/-- URI of `world.ns.atom.Sequence`. -/
def atomSequenceURI : String := "http://lv2plug.in/ns/ext/atom#Sequence"

/-- The built-in unit table `LV2_UNITS`: key, (label, render, symbol). -/
def LV2_UNITS : List (String × String × String × String) :=
  [("bar", "bars", "%f bars", "bars"),
   ("beat", "beats", "%f beats", "beats"),
   ("bpm", "beats per minute", "%f BPM", "BPM"),
   ("cent", "cents", "%f ct", "ct"),
   ("cm", "centimetres", "%f cm", "cm"),
   ("coef", "coefficient", "* %f", "*"),
   ("db", "decibels", "%f dB", "dB"),
   ("degree", "degrees", "%f deg", "deg"),
   ("frame", "audio frames", "%f frames", "frames"),
   ("hz", "hertz", "%f Hz", "Hz"),
   ("inch", "inches", "%f\"", "in"),
   ("khz", "kilohertz", "%f kHz", "kHz"),
   ("km", "kilometres", "%f km", "km"),
   ("mhz", "megahertz", "%f MHz", "MHz"),
   ("midiNote", "MIDI note", "MIDI note %d", "note"),
   ("mile", "miles", "%f mi", "mi"),
   ("min", "minutes", "%f mins", "min"),
   ("m", "metres", "%f m", "m"),
   ("mm", "millimetres", "%f mm", "mm"),
   ("ms", "milliseconds", "%f ms", "ms"),
   ("oct", "octaves", "%f octaves", "oct"),
   ("pc", "percent", "%f%%", "%"),
   ("semitone12TET", "semitones", "%f semi", "semi"),
   ("s", "seconds", "%f s", "s")]

/-! ## Raw port facts and descriptor records -/

/-- A raw scale point: `sp.get_label()` and `sp.get_value()` may each be
missing. -/
structure RawScalePoint where
  label : Option String
  value : Option Lit
deriving DecidableEq, Repr

/-- The raw metadata facts of one port, one field per lilv lookup performed
by `_get_port_info`.  `Option` models a `None`/empty lookup result; string
fields hold the raw (unstripped) string value of the first node returned. -/
structure RawPort where
  name : Option String
  symbol : Option String
  shortName : Option String
  oldShortName : Bool
  rdfTypes : List String
  bufferType : Option String
  supportsMidiEvent : Bool
  comment : Option String
  designation : Option String
  modRangeSteps : Option String
  ppropsRangeSteps : Option String
  portProps : List String
  rdefault : Option Lit
  rmin : Option Lit
  rmax : Option Lit
  scalePoints : Option (List RawScalePoint)
  unitURI : Option String
  unitLabel : Option String
  unitRender : Option String
  unitSymbol : Option String
deriving DecidableEq, Repr

/-- The `ranges` dictionary of a Control/CV port (always fully populated). -/
structure RangeSpec where
  minimum : Rat
  maximum : Rat
  default : Rat
deriving DecidableEq, Repr

/-- One normalized scale point. -/
structure ScalePoint where
  value : Rat
  label : String
deriving DecidableEq, Repr

/-- The value of the `scalePoints` entry of a port descriptor.  The source
leaves different Python objects in this slot: the initial `[]` (port is not
Control/CV), `None` (lilv returned no scale-point collection), the raw lilv
collection (every declared point was dropped), or the normalized list. -/
inductive SPField where
  | initList
  | pyNone
  | raw (sps : List RawScalePoint)
  | norm (sps : List ScalePoint)
deriving DecidableEq, Repr

/-- A resolved unit (only present when label, render and symbol all resolved
to non-empty strings). -/
structure UnitSpec where
  label : String
  render : String
  symbol : String
deriving DecidableEq, Repr

/-- The per-port descriptor dictionary returned by `_get_port_info` (the
`index` entry is added later by `_get_plugin_ports`). -/
structure PortInfo where
  name : String
  symbol : String
  ranges : Option RangeSpec
  units : Option UnitSpec
  comment : Option String
  designation : Option String
  properties : List String
  rangeSteps : Option String
  scalePoints : SPField
  shortName : String
  index : Option Nat
deriving DecidableEq, Repr

/-- A Python exception escaping the validation pass. -/
inductive PyErr where
  | nameError (msg : String)
  | typeError (msg : String)
  | valueError (msg : String)
deriving DecidableEq, Repr

deriving instance DecidableEq for Except

/-- The mutable context threaded through the pass: the two diagnostics lists
and the name/symbol registries (Python sets used only for membership and
insertion, modelled as lists). -/
structure Ctx where
  errors : List String
  warnings : List String
  portnames : List String
  portsymbols : List String
deriving DecidableEq, Repr

/-! ## Helpers `node2str` and `getfirst` -/

/-- `node2str(node)`: string value of an optional node, stripped. -/
def node2str (node : Option String) : Option String := node.map pyStrip

/-- `getfirst(obj, uri)`: string value of the first item of a lookup,
stripped; `None` when the collection is empty. -/
def getfirst (data : Option String) : Option String := data.map pyStrip

/-! ## Port types -/

/-- The type-tag computation of `_get_port_info`: the declared RDF types with
the namespace prefix and the trailing `"Port"` (4 characters) removed, plus
an extra `"MIDI"` marker for Atom sequence ports supporting MIDI events. -/
def portTypes (port : RawPort) : List String :=
  let types := port.rdfTypes.map (fun t => strDropRight (afterLastHash t) 4)
  if types.contains "Atom" && port.supportsMidiEvent &&
      (match port.bufferType with
       | some b => b == atomSequenceURI
       | none => false) then
    types ++ ["MIDI"]
  else types

/-- The sorted port-property tags (`lv2:portProperty` values, `#`-suffix). -/
def portProperties (port : RawPort) : List String :=
  pySortedStrs (port.portProps.map afterLastHash)

/-! ## Range normalization (lines 196-291 of `_get_port_info`) -/

/-- The repeated integer-domain coercion pattern for minimum/maximum/default.
Returns the coerced value and the errors/warnings it raises. -/
def coerceIntValue (portname what : String) (x : Lit) : Int × List String × List String :=
  match x with
  | .int n => (n, [], [])
  | .flt q =>
    if q.den = 1 then
      (q.num.tdiv q.den, [],
       ["port '" ++ portname ++ "' has integer property but " ++ what ++ " value is float"])
    else
      (q.num.tdiv q.den,
       ["port '" ++ portname ++ "' has integer property but " ++ what ++ " value has non-zero decimals"],
       [])

/-- The repeated float-domain coercion pattern for minimum/maximum/default. -/
def coerceFloatValue (portname what : String) (x : Lit) : Rat × List String × List String :=
  match x with
  | .int n => ((n : Rat), [], ["port '" ++ portname ++ "' " ++ what ++ " value is an integer"])
  | .flt q => (q, [], [])

/-- Domain dispatch for one range entry. -/
def coerceValue (is_int : Bool) (portname what : String) (x : Lit) : Rat × List String × List String :=
  if is_int then
    match coerceIntValue portname what x with
    | (n, e, w) => ((n : Rat), e, w)
  else coerceFloatValue portname what x

/-- The range-normalization block of `_get_port_info` for a Control/CV port:
coerce the declared minimum/maximum/default to the port's numeric domain,
force `maximum` above `minimum` when the declared order is wrong, bounds-check
the default (against bounds scaled by the 48000 reference rate for
`sampleRate` ports), and synthesize ranges when none are declared.  Returns
the `ranges` record and the errors and warnings raised, in program order. -/
def computeRanges (portname : String) (types properties : List String)
    (designation : Option String) (xdefault xminimum xmaximum : Option Lit) :
    RangeSpec × List String × List String :=
  let is_int := properties.contains "integer"
  let errs0 : List String :=
    if is_int && types.contains "CV" then
      ["port '" ++ portname ++ "' has integer property and CV type"]
    else []
  match xminimum, xmaximum with
  | some xmin, some xmax =>
    let (minv, emin, wmin) := coerceValue is_int portname "minimum" xmin
    let (maxv0, emax, wmax) := coerceValue is_int portname "maximum" xmax
    let (maxv, ecorr) :=
      if maxv0 ≤ minv then
        (ratAdd minv (if is_int then 1 else mkRat 1 10),
         ["port '" ++ portname ++ "' minimum value is equal or higher than its maximum"])
      else (maxv0, [])
    match xdefault with
    | some xdef =>
      let (dv0, edef, wdef) := coerceValue is_int portname "default" xdef
      let testmin := if properties.contains "sampleRate" then ratMul minv 48000 else minv
      let testmax := if properties.contains "sampleRate" then ratMul maxv 48000 else maxv
      let (dv, ebound) :=
        if testmin ≤ dv0 ∧ dv0 ≤ testmax then (dv0, [])
        else (minv, ["port '" ++ portname ++ "' default value is out of bounds"])
      (⟨minv, maxv, dv⟩, errs0 ++ emin ++ emax ++ ecorr ++ edef ++ ebound, wmin ++ wmax ++ wdef)
    | none =>
      let emiss : List String :=
        if types.contains "Input" then ["port '" ++ portname ++ "' is missing default value"]
        else []
      (⟨minv, maxv, minv⟩, errs0 ++ emin ++ emax ++ ecorr ++ emiss, wmin ++ wmax)
  | _, _ =>
    let rg : RangeSpec :=
      if is_int then ⟨0, 1, 0⟩
      else ⟨if types.contains "CV" then -1 else 0, 1, 0⟩
    let emiss : List String :=
      if !(types.contains "CV") && designation != some lv2_latency then
        ["port '" ++ portname ++ "' is missing value ranges"]
      else []
    (rg, errs0 ++ emiss, [])

/-! ## Scale-point normalization (lines 293-337) -/

/-- The per-point value coercion (the same inline int/float pattern as for
ranges, with the scale-point message texts). -/
def coerceScalePointValue (portname label : String) (is_int : Bool) (xval : Lit) :
    Rat × List String × List String :=
  if is_int then
    match xval with
    | .int n => ((n : Rat), ([] : List String), ([] : List String))
    | .flt q =>
      if q.den = 1 then
        ((((q.num.tdiv q.den) : Int) : Rat), [],
         ["port '" ++ portname ++ "' has integer property but scalepoint '" ++ label ++
          "' value is float"])
      else
        ((((q.num.tdiv q.den) : Int) : Rat),
         ["port '" ++ portname ++ "' has integer property but scalepoint '" ++ label ++
          "' value has non-zero decimals"],
         [])
  else
    match xval with
    | .int n =>
      ((n : Rat), [],
       ["port '" ++ portname ++ "' scalepoint '" ++ label ++ "' value is an integer"])
    | .flt q => (q, [], [])

/-- The per-point loop: drop points with missing label or value (error),
coerce the value to the port's domain (same error/warning taxonomy as for
ranges), and keep points whose value lies within the normalized range.
Returns the kept (value, label) pairs in declaration order plus the
diagnostics, in program order. -/
def processScalePoints (portname : String) (is_int : Bool) (rg : RangeSpec) :
    List RawScalePoint → List (Rat × String) × List String × List String
  | [] => ([], [], [])
  | sp :: rest =>
    let (keptR, errsR, warnsR) := processScalePoints portname is_int rg rest
    match node2str sp.label with
    | none => (keptR, "a port scalepoint is missing its label" :: errsR, warnsR)
    | some label =>
      match sp.value with
      | none =>
        (keptR, ("port scalepoint '" ++ label ++ "' is missing its value") :: errsR, warnsR)
      | some xval =>
        let (v, e1, w1) := coerceScalePointValue portname label is_int xval
        if rg.minimum ≤ v ∧ v ≤ rg.maximum then
          ((v, label) :: keptR, e1 ++ errsR, w1 ++ warnsR)
        else
          (keptR,
           e1 ++ (("port scalepoint '" ++ label ++ "' has an out-of-bounds value:\n" ++
             (if is_int then
                pyFmtD rg.minimum ++ " < " ++ pyFmtD v ++ " < " ++ pyFmtD rg.maximum
              else
                pyFmtF rg.minimum ++ " < " ++ pyFmtF v ++ " < " ++ pyFmtF rg.maximum)) :: errsR),
           w1 ++ warnsR)

/-- Python `dict(pairs)[v]` for the value-to-label mapping: the label of the
last kept pair carrying value `v`. -/
def lookupLast (kept : List (Rat × String)) (v : Rat) : Option String :=
  ((kept.filter (fun p => p.1 == v)).getLast?).map Prod.snd

/-- The scale-point block: `None` stays `None`; if at least one point was
kept, re-expand the value-to-label mapping over the sorted (with duplicates)
value list; otherwise the raw collection is left in place. -/
def computeScalePoints (portname : String) (is_int : Bool) (rg : RangeSpec) :
    Option (List RawScalePoint) → SPField × List String × List String
  | none => (.pyNone, [], [])
  | some sps =>
    let (kept, errs, warns) := processScalePoints portname is_int rg sps
    if kept.isEmpty then (.raw sps, errs, warns)
    else
      let values := List.insertionSort (α := Rat) (· ≤ ·) (kept.map Prod.fst)
      (.norm (values.map (fun v => ⟨v, (lookupLast kept v).getD ""⟩)), errs, warns)

/-- The Python `len()` of whatever object sits in the scale-point slot;
`len(None)` raises a `TypeError`. -/
def spFieldLen : SPField → Option Nat
  | .initList => some 0
  | .pyNone => none
  | .raw l => some l.length
  | .norm l => some l.length

/-- Lines 339-341: a port declaring `enumeration` whose scale-point slot
holds fewer than two entries gets an error and the flag removed.  When the
slot holds `None`, `len(None)` raises `TypeError`. -/
def enumerationCheck (portname : String) (properties : List String) (sp : SPField) :
    Except PyErr (List String × List String) :=
  if properties.contains "enumeration" then
    match spFieldLen sp with
    | none => .error (.typeError "object of type 'NoneType' has no len()")
    | some n =>
      if n ≤ 1 then
        .ok (properties.erase "enumeration",
             ["port '" ++ portname ++ "' wants to use enumeration but doesn't have enough values"])
      else .ok (properties, [])
  else .ok (properties, [])

/-! ## Unit resolution (lines 344-388) -/

/-- The unit block: only Control ports carry units; a unit in the built-in
namespace is looked up in `LV2_UNITS` (unknown suffix is an error), any other
unit URI is resolved from its custom label/render/symbol facts (each missing
one is an error).  The unit is attached only when all three parts are truthy. -/
def computeUnits (portname : String) (types : List String)
    (unitURI unitLabel unitRender unitSymbol : Option String) :
    Option UnitSpec × List String :=
  if types.contains "Control" then
    match unitURI with
    | none => (none, [])
    | some uuri =>
      let (ul, ur, us, errs) :
          Option String × Option String × Option String × List String :=
        if pyStartsWith uuri NS_UNITS then
          let suffix := afterLastHash uuri
          match LV2_UNITS.find? (fun e => e.1 == suffix) with
          | none => (none, none, none,
                     ["port '" ++ portname ++ "' has invalid lv2 unit '" ++ suffix ++ "'"])
          | some e => (some e.2.1, some e.2.2.1, some e.2.2.2, [])
        else
          let e1 : List String :=
            if unitLabel == none then ["port '" ++ portname ++ "' has custom unit with no label"]
            else []
          let e2 : List String :=
            if unitRender == none then ["port '" ++ portname ++ "' has custom unit with no render"]
            else []
          let e3 : List String :=
            if unitSymbol == none then ["port '" ++ portname ++ "' has custom unit with no symbol"]
            else []
          (unitLabel, unitRender, unitSymbol, e1 ++ e2 ++ e3)
      (if truthyOpt ul && truthyOpt ur && truthyOpt us then
         some ⟨ul.getD "", ur.getD "", us.getD ""⟩
       else none, errs)
  else (none, [])

/-! ## `_get_port_info` -/

/-- The full per-port extraction and validation.  A port with a missing name
or symbol makes the source evaluate `"_%i" % index` where `index` is an
undefined variable, raising `NameError`; this is modelled faithfully. -/
def _get_port_info (ctx : Ctx) (port : RawPort) : Except PyErr (Ctx × List String × PortInfo) :=
  match port.name with
  | none => .error (.nameError "name 'index' is not defined")
  | some portname =>
  match port.symbol with
  | none => .error (.nameError "name 'index' is not defined")
  | some portsymbol =>
    let (warns1, portnames1) :=
      if ctx.portsymbols.contains portname then
        (["port name '" ++ portname ++ "' is not unique"], ctx.portnames)
      else ([], portname :: ctx.portnames)
    let (errs1, portsymbols1) :=
      if ctx.portsymbols.contains portsymbol then
        (["port symbol '" ++ portsymbol ++ "' is not unique"], ctx.portsymbols)
      else ([], portsymbol :: ctx.portsymbols)
    let psname0 := getfirst port.shortName
    let (psname, errs2) :=
      match psname0 with
      | none => (strTake portname 16, ([] : List String))
      | some s =>
        (s, if 16 < strLen s then
              ["port '" ++ portname ++ "' short name has more than 16 characters"]
            else [])
    let errs3 : List String :=
      if port.oldShortName then
        ["port '" ++ portname ++ "' short name is using old style 'shortname' instead of 'shortName'"]
      else []
    let types := portTypes port
    let pcomment := getfirst port.comment
    let designation := getfirst port.designation
    let rangesteps := pyOr (getfirst port.modRangeSteps) (getfirst port.ppropsRangeSteps)
    let properties := portProperties port
    if types.contains "Control" || types.contains "CV" then
      let (rg, errs4, warns4) :=
        computeRanges portname types properties designation port.rdefault port.rmin port.rmax
      let (spf, errs5, warns5) :=
        computeScalePoints portname (properties.contains "integer") rg port.scalePoints
      match enumerationCheck portname properties spf with
      | .error e => .error e
      | .ok (properties2, errs6) =>
        let (us, errs7) :=
          computeUnits portname types port.unitURI port.unitLabel port.unitRender port.unitSymbol
        .ok (⟨ctx.errors ++ errs1 ++ errs2 ++ errs3 ++ errs4 ++ errs5 ++ errs6 ++ errs7,
              ctx.warnings ++ warns1 ++ warns4 ++ warns5, portnames1, portsymbols1⟩,
             types,
             ⟨portname, portsymbol, some rg, us, pcomment, designation, properties2,
              rangesteps, spf, psname, none⟩)
    else
      let (us, errs7) :=
        computeUnits portname types port.unitURI port.unitLabel port.unitRender port.unitSymbol
      .ok (⟨ctx.errors ++ errs1 ++ errs2 ++ errs3 ++ errs7,
            ctx.warnings ++ warns1, portnames1, portsymbols1⟩,
           types,
           ⟨portname, portsymbol, none, us, pcomment, designation, properties,
            rangesteps, .initList, psname, none⟩)

/-! ## `_get_plugin_ports` (classification into the ports mapping) -/

/-- A per-class pair of input/output port lists. -/
structure PortsIO where
  input : List PortInfo
  output : List PortInfo
deriving DecidableEq, Repr

/-- Python `dict` lookup on a string-keyed association list. -/
def dictLookup {α : Type} (d : List (String × α)) (k : String) : Option α :=
  (d.find? (fun e => e.1 == k)).map Prod.snd

/-- Python `k in d.keys()`. -/
def dictContains {α : Type} (d : List (String × α)) (k : String) : Bool :=
  (d.find? (fun e => e.1 == k)).isSome

/-- Python `d[k] = v`: overwrite in place, or append a new key. -/
def dictSet {α : Type} (d : List (String × α)) (k : String) (v : α) : List (String × α) :=
  if dictContains d k then d.map (fun e => if e.1 == k then (k, v) else e)
  else d ++ [(k, v)]

/-- One iteration of the classification loop body: create the class entry if
absent and append the port info to its input or output list. -/
def appendPortInfo (d : List (String × PortsIO)) (typ : String) (is_input : Bool)
    (info : PortInfo) : List (String × PortsIO) :=
  let d1 := if dictContains d typ then d else d ++ [(typ, ⟨[], []⟩)]
  let cur := (dictLookup d1 typ).getD ⟨[], []⟩
  dictSet d1 typ
    (if is_input then ⟨cur.input ++ [info], cur.output⟩ else ⟨cur.input, cur.output ++ [info]⟩)

/-- The initial ports mapping (audio/control/midi always present). -/
def portsInit : List (String × PortsIO) :=
  [("audio", ⟨[], []⟩), ("control", ⟨[], []⟩), ("midi", ⟨[], []⟩)]

/-- The lowered class names a port is filed under (its types with the
direction marker removed).  `list.remove` removes the first occurrence and
raises `ValueError` when the element is absent. -/
def portKeys (types : List String) (is_input : Bool) : List String :=
  (types.erase (if is_input then "Input" else "Output")).map pyLower

/-- The port loop of `_get_plugin_ports`, threading the context, the ports
mapping and the running index. -/
def portsGo (ctx : Ctx) (d : List (String × PortsIO)) (i : Nat) :
    List RawPort → Except PyErr (Ctx × List (String × PortsIO))
  | [] => .ok (ctx, d)
  | rp :: rest =>
    match _get_port_info ctx rp with
    | .error e => .error e
    | .ok (ctx1, types, info0) =>
      let info := { info0 with index := some i }
      let is_input := types.contains "Input"
      if is_input || types.contains "Output" then
        let d1 := (portKeys types is_input).foldl
          (fun acc typ => appendPortInfo acc typ is_input info) d
        portsGo ctx1 d1 (i + 1) rest
      else .error (.valueError "list.remove(x): x not in list")

/-- `_get_plugin_ports`: reset the name/symbol registries, then classify
every port by index order. -/
def _get_plugin_ports (ctx : Ctx) (rawPorts : List RawPort) :
    Except PyErr (Ctx × List (String × PortsIO)) :=
  portsGo ⟨ctx.errors, ctx.warnings, [], []⟩ portsInit 0 rawPorts

/-! ## `_get_plugin_presets` -/

/-- A preset reference (`label` is `None` when the preset has no label fact). -/
structure PresetRef where
  label : Option String
  uri : String
deriving DecidableEq, Repr

/-- The sort key `x['label'] or ''`. -/
def presetKey (p : PresetRef) : String := p.label.getD ""

/-- The preset ordering used by `sorted(preset_list, key=...)`. -/
def presetRel (a b : PresetRef) : Prop := strLe (presetKey a) (presetKey b)

instance : DecidableRel presetRel := fun _ _ => inferInstanceAs (Decidable (_ = true))

/-- The preset loop: record every related preset, with an error for each one
lacking a label. -/
def presetsGo (errs : List String) (acc : List PresetRef) :
    List (String × Option String) → List String × List PresetRef
  | [] => (errs, acc)
  | (uri, lbl) :: rest =>
    match lbl with
    | some l => presetsGo errs (acc ++ [⟨some l, uri⟩]) rest
    | none =>
      presetsGo (errs ++ ["Preset '" ++ uri ++ "' has no rdfs:label"]) (acc ++ [⟨none, uri⟩]) rest

/-- `_get_plugin_presets`: collect and sort by label (stable, `None` as `""`). -/
def _get_plugin_presets (ctx : Ctx) (presets : List (String × Option String)) :
    Ctx × List PresetRef :=
  let (errs, lst) := presetsGo [] [] presets
  ({ ctx with errors := ctx.errors ++ errs }, List.insertionSort presetRel lst)

/-! ## `_get_plugin_properties` -/

/-- The repository facts about one property URI: whether it is declared a
`lv2:Parameter`, and its first label and range facts. -/
structure RawPropDef where
  isParameter : Bool
  label : Option String
  range : Option String
deriving DecidableEq, Repr

/-- One resolved patchable property.  `label`/`type` are `none` when the
corresponding lookup returned an empty collection (the source then leaves the
empty collection object in the slot). -/
structure PropertySpec where
  uri : String
  label : Option String
  type : Option String
  writable : Bool
deriving DecidableEq, Repr

/-- The property loop over `readable + writeable`: skip (with an error)
properties not declared as Parameters; later writable entries overwrite
readable ones in place, so `writable = true` wins. -/
def propsGo (defs : List (String × RawPropDef)) (errs : List String)
    (props : List (String × PropertySpec)) :
    List (String × Bool) → List String × List (String × PropertySpec)
  | [] => (errs, props)
  | (uri, is_writable) :: rest =>
    let dd := dictLookup defs uri
    if (match dd with | some d => d.isParameter | none => false) then
      let d := dd.getD ⟨false, none, none⟩
      propsGo defs errs (dictSet props uri ⟨uri, d.label, d.range, is_writable⟩) rest
    else
      propsGo defs (errs ++ ["Could not find defintion of property '" ++ uri ++ "'."]) props rest

/-- `_get_plugin_properties`. -/
def _get_plugin_properties (ctx : Ctx) (readable writable : List String)
    (defs : List (String × RawPropDef)) : Ctx × List (String × PropertySpec) :=
  let pairs := readable.map (fun u => (u, false)) ++ writable.map (fun u => (u, true))
  let (errs, props) := propsGo defs [] [] pairs
  ({ ctx with errors := ctx.errors ++ errs }, props)

/-! ## Identity, version, category, bundles -/

/-- Stability from version parity. -/
def stabilityOf (minor micro : Int) : String :=
  if minor = 0 then "experimental"
  else if minor % 2 ≠ 0 ∨ micro % 2 ≠ 0 then "testing"
  else "stable"

/-- The fixed type-to-category table `LV2_CATEGORIES`. -/
def LV2_CATEGORIES : List (String × List String) :=
  [("AllpassPlugin", ["Filter", "Allpass"]),
   ("AmplifierPlugin", ["Dynamics", "Amplifier"]),
   ("AnalyserPlugin", ["Utility", "Analyser"]),
   ("BandpassPlugin", ["Filter", "Bandpass"]),
   ("ChorusPlugin", ["Modulator", "Chorus"]),
   ("CombPlugin", ["Filter", "Comb"]),
   ("CompressorPlugin", ["Dynamics", "Compressor"]),
   ("ConstantPlugin", ["Generator", "Constant"]),
   ("ConverterPlugin", ["Utility", "Converter"]),
   ("DelayPlugin", ["Delay"]),
   ("DistortionPlugin", ["Distortion"]),
   ("DynamicsPlugin", ["Dynamics"]),
   ("EQPlugin", ["Filter", "Equaliser"]),
   ("ExpanderPlugin", ["Dynamics", "Expander"]),
   ("FilterPlugin", ["Filter"]),
   ("FlangerPlugin", ["Modulator", "Flanger"]),
   ("FunctionPlugin", ["Utility", "Function"]),
   ("GatePlugin", ["Dynamics", "Gate"]),
   ("GeneratorPlugin", ["Generator"]),
   ("HighpassPlugin", ["Filter", "Highpass"]),
   ("InstrumentPlugin", ["Generator", "Instrument"]),
   ("LimiterPlugin", ["Dynamics", "Limiter"]),
   ("LowpassPlugin", ["Filter", "Lowpass"]),
   ("MIDIPlugin", ["MIDI", "Utility"]),
   ("MixerPlugin", ["Utility", "Mixer"]),
   ("ModulatorPlugin", ["Modulator"]),
   ("MultiEQPlugin", ["Filter", "Equaliser", "Multiband"]),
   ("OscillatorPlugin", ["Generator", "Oscillator"]),
   ("ParaEQPlugin", ["Filter", "Equaliser", "Parametric"]),
   ("PhaserPlugin", ["Modulator", "Phaser"]),
   ("PitchPlugin", ["Spectral", "Pitch Shifter"]),
   ("ReverbPlugin", ["Reverb"]),
   ("SimulatorPlugin", ["Simulator"]),
   ("SpatialPlugin", ["Spatial"]),
   ("SpectralPlugin", ["Spectral"]),
   ("UtilityPlugin", ["Utility"]),
   ("WaveshaperPlugin", ["Distortion", "Waveshaper"])]

/-- Canonical form of a Python `set` of strings materialized into a sorted
list: duplicates removed, lexicographically sorted.  (When the source turns a
set into a list without sorting, its element order is unspecified; the
embedding uses this canonical order.) -/
def pySetSorted (l : List String) : List String := List.insertionSort strLe l.eraseDups

/-- The category set of a plugin, from its RDF types. -/
def categoryOf (categories : List String) : List String :=
  pySetSorted (categories.foldl
    (fun acc node =>
      acc ++ ((LV2_CATEGORIES.find? (fun e => e.1 == afterFirstHash node)).map Prod.snd).getD [])
    [])

/-- Python `s.rstrip(os.sep)` with `/` as separator. -/
def rstripSlash (s : String) : String :=
  ⟨(s.data.reverse.dropWhile (fun c => c == '/')).reverse⟩

/-- The bundle list: the directories of the data files (their resolution via
`os.path.dirname` belongs to the external path library; the raw field holds
its results) plus the plugin's own bundle directory, deduplicated, sorted. -/
def bundlesOf (bundlePathRaw : String) (dataDirs : List String) : List String :=
  let bundlepath := rstripSlash bundlePathRaw
  if dataDirs.isEmpty then pySortedStrs [bundlepath]
  else pySetSorted (dataDirs ++ [bundlepath])

/-! ## `_get_plugin_info` -/

/-- The raw metadata facts of one plugin, one field per lilv lookup performed
by `_get_plugin_info` (string fields hold raw, unstripped values; version
fields hold the integer value lists returned by `get_value`). -/
structure RawPlugin where
  uri : Option String
  name : Option String
  modLabel : Option String
  authorName : Option String
  authorEmail : Option String
  authorHomepage : Option String
  binary : Option String
  brand : Option String
  license : Option String
  comment : Option String
  microver : List Int
  minorver : List Int
  categories : List String
  bundlePathRaw : String
  dataDirs : List String
  ports : List RawPort
  presets : List (String × Option String)
  readable : List String
  writable : List String
  propDefs : List (String × RawPropDef)
deriving DecidableEq, Repr

/-- The normalized plugin descriptor (the `author` sub-dictionary is
flattened into three fields). -/
structure PluginDescriptor where
  uri : Option String
  name : Option String
  binary : Option String
  brand : Option String
  label : Option String
  license : Option String
  comment : Option String
  category : List String
  microVersion : Int
  minorVersion : Int
  version : String
  stability : String
  authorName : Option String
  authorEmail : Option String
  authorHomepage : Option String
  bundles : List String
  ports : List (String × PortsIO)
  presets : List PresetRef
  properties : List (String × PropertySpec)
  errors : List String
  warnings : List String
deriving DecidableEq, Repr

/-- The full validation pass for one plugin. -/
def _get_plugin_info (p : RawPlugin) : Except PyErr PluginDescriptor :=
  let errs_uri : List String :=
    match p.uri with
    | none => ["plugin uri is missing or invalid"]
    | some u =>
      if pyStartsWith u "file:" then
        ["plugin uri is local, and thus not suitable for redistribution"]
      else []
  let errs_name : List String := if p.name == none then ["plugin name is missing"] else []
  let label0 := getfirst p.modLabel
  let (label, warns_label) :=
    match label0 with
    | none =>
      ((match p.name with
        | some n => some (strTake n 16)
        | none => none), ["plugin label is missing"])
    | some l =>
      (some l, if 16 < strLen l then ["plugin label has more than 16 characters"] else [])
  let errs_binary : List String := if p.binary == none then ["plugin binary is missing"] else []
  let brand := getfirst p.brand
  let warns_brand : List String :=
    match brand with
    | none => ["plugin brand is missing"]
    | some b => if 16 < strLen b then ["plugin brand has more than 11 characters"] else []
  let license := getfirst p.license
  let errs_license : List String := if license == none then ["plugin license is missing"] else []
  let comment := getfirst p.comment
  let errs_comment : List String := if comment == none then ["plugin comment is missing"] else []
  let (minor_version, micro_version, errs_ver) :=
    if p.microver.isEmpty && p.minorver.isEmpty then
      ((0 : Int), (0 : Int), ["plugin is missing version information"])
    else
      let (minor, e1) :=
        match p.minorver with
        | [] => ((0 : Int), ["plugin is missing minorVersion"])
        | v :: _ => (v, ([] : List String))
      let (micro, e2) :=
        match p.microver with
        | [] => ((0 : Int), ["plugin is missing microVersion"])
        | v :: _ => (v, ([] : List String))
      (minor, micro, e1 ++ e2)
  let version := toString minor_version ++ "." ++ toString micro_version
  let stability := stabilityOf minor_version micro_version
  let ctx1 : Ctx :=
    ⟨errs_uri ++ errs_name ++ errs_binary ++ errs_license ++ errs_comment ++ errs_ver,
     warns_label ++ warns_brand, [], []⟩
  match _get_plugin_ports ctx1 p.ports with
  | .error e => .error e
  | .ok (ctx2, ports) =>
    let (ctx3, presets) := _get_plugin_presets ctx2 p.presets
    let (ctx4, props) := _get_plugin_properties ctx3 p.readable p.writable p.propDefs
    .ok { uri := node2str p.uri, name := node2str p.name, binary := p.binary, brand := brand,
          label := label, license := license, comment := comment,
          category := categoryOf p.categories,
          microVersion := micro_version, minorVersion := minor_version,
          version := version, stability := stability,
          authorName := node2str p.authorName, authorEmail := node2str p.authorEmail,
          authorHomepage := node2str p.authorHomepage,
          bundles := bundlesOf p.bundlePathRaw p.dataDirs,
          ports := ports, presets := presets, properties := props,
          errors := pySortedStrs ctx4.errors, warnings := pySortedStrs ctx4.warnings }

/-! ## General lemmas about the embedding -/

theorem mkRat_one_ten_pos : (0 : Rat) < mkRat 1 10 := by
  rw [Rat.mkRat_eq_div]
  norm_num

theorem lt_ratAdd_of_pos (a c : Rat) (h : 0 < c) : a < ratAdd a c := by
  rw [ratAdd_eq]
  linarith

/-- The minimum produced by the range-normalization block is always strictly
below the maximum: a wrongly ordered declared range is corrected by pushing
the maximum above the minimum, and the synthesized fallback ranges are
ordered as well. -/
theorem computeRanges_min_lt_max (portname : String) (types properties : List String)
    (designation : Option String) (xdefault xminimum xmaximum : Option Lit) :
    (computeRanges portname types properties designation xdefault xminimum xmaximum).1.minimum <
      (computeRanges portname types properties designation xdefault xminimum xmaximum).1.maximum := by
  unfold computeRanges
  cases xminimum with
  | none =>
    cases xmaximum <;> dsimp only <;> split_ifs <;> norm_num
  | some xmin =>
    cases xmaximum with
    | none => dsimp only; split_ifs <;> norm_num
    | some xmax =>
      dsimp only
      rcases hmin : coerceValue (properties.contains "integer") portname "minimum" xmin with
        ⟨minv, emin, wmin⟩
      rcases hmax : coerceValue (properties.contains "integer") portname "maximum" xmax with
        ⟨maxv0, emax, wmax⟩
      simp only [hmin, hmax]
      by_cases hord : maxv0 ≤ minv
      · simp only [if_pos hord]
        have hcorr : ∀ b : Bool,
            minv < ratAdd minv (if b = true then 1 else mkRat 1 10) := by
          intro b
          cases b
          · exact lt_ratAdd_of_pos _ _ mkRat_one_ten_pos
          · exact lt_ratAdd_of_pos _ _ (by norm_num)
        cases xdefault <;> dsimp only <;> exact hcorr _
      · simp only [if_neg hord]
        push_neg at hord
        cases xdefault <;> dsimp only <;> exact hord

/-- A successful `_get_port_info` returns exactly the computed port types. -/
theorem _get_port_info_types_eq (ctx : Ctx) (port : RawPort) (ctx' : Ctx)
    (types : List String) (info : PortInfo)
    (hok : _get_port_info ctx port = .ok (ctx', types, info)) :
    types = portTypes port := by
  unfold _get_port_info at hok
  cases hn : port.name with
  | none => rw [hn] at hok; exact absurd hok (by simp)
  | some pn =>
    rw [hn] at hok
    cases hs : port.symbol with
    | none => rw [hs] at hok; exact absurd hok (by simp)
    | some ps =>
      rw [hs] at hok
      dsimp only at hok
      split at hok
      · cases henum : enumerationCheck pn (portProperties port)
          (computeScalePoints pn ((portProperties port).contains "integer")
            (computeRanges pn (portTypes port) (portProperties port)
              (getfirst port.designation) port.rdefault port.rmin port.rmax).1
            port.scalePoints).1 with
        | error e => rw [henum] at hok; exact absurd hok (by simp)
        | ok pe =>
          rw [henum] at hok
          obtain ⟨props2, errs6⟩ := pe
          dsimp only at hok
          injection hok with h1
          injection h1 with hctx h2
          injection h2 with hty hinfo
          exact hty.symm
      · injection hok with h1
        injection h1 with hctx h2
        injection h2 with hty hinfo
        exact hty.symm

/-- Inversion of a successful `_get_port_info` on a Control or CV port: the
descriptor's range is the one computed by the range normalizer, the
scale-point slot is the one computed by the scale-point normalizer, and the
final property list is the enumeration-checked one. -/
theorem _get_port_info_control_inv (ctx : Ctx) (port : RawPort) (ctx' : Ctx)
    (types : List String) (info : PortInfo)
    (hok : _get_port_info ctx port = .ok (ctx', types, info))
    (hg : (types.contains "Control" || types.contains "CV") = true) :
    ∃ pn,
      port.name = some pn ∧
      info.ranges = some (computeRanges pn (portTypes port) (portProperties port)
        (getfirst port.designation) port.rdefault port.rmin port.rmax).1 ∧
      info.scalePoints = (computeScalePoints pn ((portProperties port).contains "integer")
        (computeRanges pn (portTypes port) (portProperties port)
          (getfirst port.designation) port.rdefault port.rmin port.rmax).1
        port.scalePoints).1 ∧
      ∃ e6, enumerationCheck pn (portProperties port)
        (computeScalePoints pn ((portProperties port).contains "integer")
          (computeRanges pn (portTypes port) (portProperties port)
            (getfirst port.designation) port.rdefault port.rmin port.rmax).1
          port.scalePoints).1 = .ok (info.properties, e6) := by
  have hty := _get_port_info_types_eq ctx port ctx' types info hok
  unfold _get_port_info at hok
  cases hn : port.name with
  | none => rw [hn] at hok; exact absurd hok (by simp)
  | some pn =>
    rw [hn] at hok
    cases hs : port.symbol with
    | none => rw [hs] at hok; exact absurd hok (by simp)
    | some ps =>
      rw [hs] at hok
      dsimp only at hok
      split at hok
      · cases henum : enumerationCheck pn (portProperties port)
          (computeScalePoints pn ((portProperties port).contains "integer")
            (computeRanges pn (portTypes port) (portProperties port)
              (getfirst port.designation) port.rdefault port.rmin port.rmax).1
            port.scalePoints).1 with
        | error e => rw [henum] at hok; exact absurd hok (by simp)
        | ok pe =>
          rw [henum] at hok
          obtain ⟨props2, errs6⟩ := pe
          dsimp only at hok
          injection hok with h1
          injection h1 with hctx h2
          injection h2 with hty2 hinfo
          refine ⟨pn, rfl, ?_, ?_, ?_⟩
          · rw [← hinfo]
          · rw [← hinfo]
          · rw [← hinfo]
            exact ⟨errs6, henum⟩
      · rename_i hgate
        rw [hty] at hg
        exact absurd hg (by simpa using hgate)

/-! ## Claims -/

/-- Witness input for C1. -/
def wC1Port : RawPort :=
  { name := some "Gain", symbol := some "gain", shortName := none, oldShortName := false,
    rdfTypes := ["http://lv2plug.in/ns/lv2core#InputPort", "http://lv2plug.in/ns/lv2core#ControlPort"],
    bufferType := none, supportsMidiEvent := false, comment := none, designation := none,
    modRangeSteps := none, ppropsRangeSteps := none, portProps := [],
    rdefault := some (.flt (mkRat 1 2)), rmin := some (.flt 0), rmax := some (.flt 1),
    scalePoints := none, unitURI := none, unitLabel := none, unitRender := none, unitSymbol := none }

/-- The descriptor produced for the C1 witness port. -/
def wC1Info : PortInfo :=
  { name := "Gain", symbol := "gain", ranges := some ⟨0, 1, mkRat 1 2⟩, units := none,
    comment := none, designation := none, properties := [], rangeSteps := none,
    scalePoints := .pyNone, shortName := "Gain", index := none }

/-- After range normalization the default either passed the (possibly
sample-rate-scaled) bounds check, or was set to the minimum (out-of-bounds
clamp, absent default, or synthesized range with default equal to minimum) —
except that the synthesized CV range has default 0 strictly inside its
bounds. -/
theorem computeRanges_default_cases (portname : String) (types properties : List String)
    (designation : Option String) (xdefault xminimum xmaximum : Option Lit) :
    ((if properties.contains "sampleRate" = true then
        ratMul (computeRanges portname types properties designation xdefault xminimum xmaximum).1.minimum 48000
      else (computeRanges portname types properties designation xdefault xminimum xmaximum).1.minimum) ≤
        (computeRanges portname types properties designation xdefault xminimum xmaximum).1.default ∧
      (computeRanges portname types properties designation xdefault xminimum xmaximum).1.default ≤
        (if properties.contains "sampleRate" = true then
          ratMul (computeRanges portname types properties designation xdefault xminimum xmaximum).1.maximum 48000
        else (computeRanges portname types properties designation xdefault xminimum xmaximum).1.maximum)) ∨
    (computeRanges portname types properties designation xdefault xminimum xmaximum).1.default =
      (computeRanges portname types properties designation xdefault xminimum xmaximum).1.minimum := by
  unfold computeRanges
  cases xminimum with
  | none =>
    cases xmaximum <;> dsimp only <;> split_ifs <;>
      first
      | exact Or.inr rfl
      | (refine Or.inl ⟨?_, ?_⟩ <;> rw [ratMul_eq] <;> norm_num)
      | (refine Or.inl ⟨?_, ?_⟩ <;> norm_num)
  | some xmin =>
    cases xmaximum with
    | none =>
      dsimp only; split_ifs <;>
        first
        | exact Or.inr rfl
        | (refine Or.inl ⟨?_, ?_⟩ <;> rw [ratMul_eq] <;> norm_num)
        | (refine Or.inl ⟨?_, ?_⟩ <;> norm_num)
    | some xmax =>
      dsimp only
      rcases hmin : coerceValue (properties.contains "integer") portname "minimum" xmin with
        ⟨minv, emin, wmin⟩
      rcases hmax : coerceValue (properties.contains "integer") portname "maximum" xmax with
        ⟨maxv0, emax, wmax⟩
      simp only [hmin, hmax]
      by_cases hord : maxv0 ≤ minv <;>
        [simp only [if_pos hord]; simp only [if_neg hord]] <;>
      · cases xdefault with
        | none => dsimp only; exact Or.inr rfl
        | some xdef =>
          dsimp only
          rcases hdef : coerceValue (properties.contains "integer") portname "default" xdef with
            ⟨dv0, edef, wdef⟩
          simp only [hdef]
          split_ifs <;> first | exact Or.inl (by assumption) | exact Or.inr rfl

/-- Counterexample input for C2: a `sampleRate`-flagged Control port declaring
`minimum=1.0, maximum=2.0, default=3.0`. -/
def cxC2Port : RawPort :=
  { name := some "Freq", symbol := some "freq", shortName := none, oldShortName := false,
    rdfTypes := ["http://lv2plug.in/ns/lv2core#InputPort", "http://lv2plug.in/ns/lv2core#ControlPort"],
    bufferType := none, supportsMidiEvent := false, comment := none, designation := none,
    modRangeSteps := none, ppropsRangeSteps := none,
    portProps := ["http://lv2plug.in/ns/lv2core#sampleRate"],
    rdefault := some (.flt 3), rmin := some (.flt 1), rmax := some (.flt 2),
    scalePoints := none, unitURI := none, unitLabel := none, unitRender := none, unitSymbol := none }

/-- C2 counterexample: on `cxC2Port` the declared default 3.0 is outside the
scaled bounds [48000, 96000], so it is clamped to the minimum 1.0 — but 1.0
itself violates the claimed invariant `48000·minimum ≤ default`, so the
normalized descriptor does not satisfy
`scaled minimum ≤ default ≤ scaled maximum`. -/
theorem C2_default_bounds_counterexample :
    (_get_port_info ⟨[], [], [], []⟩ cxC2Port).map
        (fun r => (r.2.2.ranges, r.2.2.properties.contains "sampleRate")) =
      .ok (some ⟨1, 2, 1⟩, true) ∧
    ¬ (ratMul (1 : Rat) 48000 ≤ (1 : Rat) ∧ (1 : Rat) ≤ ratMul (2 : Rat) 48000) := by
  constructor
  · decide
  · decide

/-- C2 (amended): for every Control or CV port, after normalization
`minimum ≤ default ≤ maximum` holds whenever the port does not carry the
`sampleRate` flag; for a `sampleRate`-flagged port either the default passed
the check against the bounds scaled by the 48000 reference rate, or it was
replaced by (or defaulted to) `minimum`, which may itself lie outside the
scaled bounds. -/
theorem C2_default_in_bounds_amended (ctx : Ctx) (port : RawPort) (ctx' : Ctx)
    (types : List String) (info : PortInfo)
    (hok : _get_port_info ctx port = .ok (ctx', types, info))
    (hg : (types.contains "Control" || types.contains "CV") = true) :
    ∃ rg, info.ranges = some rg ∧
      ((portProperties port).contains "sampleRate" = false →
        rg.minimum ≤ rg.default ∧ rg.default ≤ rg.maximum) ∧
      ((portProperties port).contains "sampleRate" = true →
        (ratMul rg.minimum 48000 ≤ rg.default ∧ rg.default ≤ ratMul rg.maximum 48000) ∨
        rg.default = rg.minimum) := by
  obtain ⟨pn, hn, hr, _, _⟩ := _get_port_info_control_inv ctx port ctx' types info hok hg
  refine ⟨_, hr, ?_, ?_⟩
  · intro hsr
    have hcases := computeRanges_default_cases pn (portTypes port) (portProperties port)
      (getfirst port.designation) port.rdefault port.rmin port.rmax
    have hlt := computeRanges_min_lt_max pn (portTypes port) (portProperties port)
      (getfirst port.designation) port.rdefault port.rmin port.rmax
    simp only [hsr, Bool.false_eq_true, if_false] at hcases
    rcases hcases with h | h
    · exact h
    · rw [h]
      exact ⟨le_refl _, le_of_lt hlt⟩
  · intro hsr
    have hcases := computeRanges_default_cases pn (portTypes port) (portProperties port)
      (getfirst port.designation) port.rdefault port.rmin port.rmax
    simp only [hsr, if_true] at hcases
    exact hcases

theorem C2_default_in_bounds_amended_witness :
    ∃ rg, wC1Info.ranges = some rg ∧
      ((portProperties wC1Port).contains "sampleRate" = false →
        rg.minimum ≤ rg.default ∧ rg.default ≤ rg.maximum) ∧
      ((portProperties wC1Port).contains "sampleRate" = true →
        (ratMul rg.minimum 48000 ≤ rg.default ∧ rg.default ≤ ratMul rg.maximum 48000) ∨
        rg.default = rg.minimum) :=
  C2_default_in_bounds_amended ⟨[], [], [], []⟩ wC1Port
    ⟨[], [], ["Gain"], ["gain"]⟩ ["Input", "Control"] wC1Info
    (by decide) (by decide)

/-- Every (value, label) pair kept by the scale-point loop has its value
within the normalized range. -/
theorem processScalePoints_kept_bounds (portname : String) (is_int : Bool) (rg : RangeSpec) :
    ∀ sps : List RawScalePoint, ∀ p ∈ (processScalePoints portname is_int rg sps).1,
      rg.minimum ≤ p.1 ∧ p.1 ≤ rg.maximum := by
  intro sps
  induction sps with
  | nil => intro p hp; simp [processScalePoints] at hp
  | cons sp rest ih =>
    intro p hp
    unfold processScalePoints at hp
    rcases hr : processScalePoints portname is_int rg rest with ⟨keptR, errsR, warnsR⟩
    rw [hr] at hp
    have ihr : ∀ q ∈ keptR, rg.minimum ≤ q.1 ∧ q.1 ≤ rg.maximum := by
      intro q hq
      exact ih q (by rw [hr]; exact hq)
    cases hl : node2str sp.label with
    | none => rw [hl] at hp; exact ihr p hp
    | some label =>
      rw [hl] at hp
      cases hv : sp.value with
      | none => rw [hv] at hp; exact ihr p hp
      | some xval =>
        rw [hv] at hp
        dsimp only at hp
        rcases hcv : coerceScalePointValue portname label is_int xval with ⟨v, e1, w1⟩
        rw [hcv] at hp
        dsimp only at hp
        split at hp
        · rcases List.mem_cons.mp hp with hpc | hpr
          · subst hpc
            assumption
          · exact ihr p hpr
        · exact ihr p hp

/-- A value occurring among the kept pairs has a last label in the
value-to-label mapping. -/
theorem lookupLast_isSome (kept : List (Rat × String)) (v : Rat)
    (h : v ∈ kept.map Prod.fst) : ∃ s, lookupLast kept v = some s := by
  unfold lookupLast
  have hne : kept.filter (fun p => p.1 == v) ≠ [] := by
    obtain ⟨p, hp, hpv⟩ := List.mem_map.mp h
    intro hemp
    have := (List.filter_eq_nil_iff.mp hemp) p hp
    simp [hpv] at this
  obtain ⟨s, hs⟩ := Option.isSome_iff_exists.mp (List.getLast?_isSome.mpr hne)
  exact ⟨s.2, by rw [hs]; rfl⟩

/-- Specification of the normalized scale-point list: its values are those of
the kept pairs sorted ascending (duplicates preserved), and every entry's
label is the one stored in the value-to-label mapping, i.e. the label of the
last kept pair carrying that value. -/
theorem computeScalePoints_norm_spec (portname : String) (is_int : Bool) (rg : RangeSpec)
    (sps : List RawScalePoint) (l : List ScalePoint)
    (h : (computeScalePoints portname is_int rg (some sps)).1 = .norm l) :
    (∀ e ∈ l, rg.minimum ≤ e.value ∧ e.value ≤ rg.maximum) ∧
    l.Pairwise (fun a b => a.value ≤ b.value) ∧
    (∀ e ∈ l, lookupLast (processScalePoints portname is_int rg sps).1 e.value = some e.label) := by
  unfold computeScalePoints at h
  dsimp only at h
  rcases hk : processScalePoints portname is_int rg sps with ⟨kept, errs, warns⟩
  rw [hk] at h
  dsimp only at h
  split at h
  · exact absurd h (by simp)
  · have hl : l = (List.insertionSort (α := Rat) (· ≤ ·) (kept.map Prod.fst)).map
        (fun v => ⟨v, (lookupLast kept v).getD ""⟩) := by
      injection h with h'
      exact h'.symm
    have hmemv : ∀ e ∈ l, e.value ∈ kept.map Prod.fst ∧
        e = ⟨e.value, (lookupLast kept e.value).getD ""⟩ := by
      intro e he
      rw [hl] at he
      obtain ⟨v, hv, hev⟩ := List.mem_map.mp he
      have hvk : v ∈ kept.map Prod.fst :=
        (List.perm_insertionSort (α := Rat) (· ≤ ·) (kept.map Prod.fst)).mem_iff.mp hv
      rw [← hev]
      exact ⟨hvk, rfl⟩
    refine ⟨?_, ?_, ?_⟩
    · intro e he
      obtain ⟨hvk, _⟩ := hmemv e he
      obtain ⟨p, hp, hpv⟩ := List.mem_map.mp hvk
      have := processScalePoints_kept_bounds portname is_int rg sps p (by rw [hk]; exact hp)
      rw [← hpv]
      exact this
    · rw [hl]
      rw [List.pairwise_map]
      exact List.sorted_insertionSort (α := Rat) (· ≤ ·) (kept.map Prod.fst)
    · intro e he
      obtain ⟨hvk, hee⟩ := hmemv e he
      obtain ⟨s, hs⟩ := lookupLast_isSome kept e.value hvk
      dsimp only
      rw [hs]
      have : e.label = s := by
        conv_lhs => rw [hee]
        simp [hs]
      rw [this]

/-- Counterexample input for C3: two declared scale points with the same
value 1 and labels "a" then "b". -/
def cxC3Port : RawPort :=
  { name := some "Mode", symbol := some "mode", shortName := none, oldShortName := false,
    rdfTypes := ["http://lv2plug.in/ns/lv2core#InputPort", "http://lv2plug.in/ns/lv2core#ControlPort"],
    bufferType := none, supportsMidiEvent := false, comment := none, designation := none,
    modRangeSteps := none, ppropsRangeSteps := none,
    portProps := ["http://lv2plug.in/ns/lv2core#integer"],
    rdefault := some (.int 0), rmin := some (.int 0), rmax := some (.int 10),
    scalePoints := some [⟨some "a", some (.int 1)⟩, ⟨some "b", some (.int 1)⟩],
    unitURI := none, unitLabel := none, unitRender := none, unitSymbol := none }

/-- C3 counterexample: two declared scale points sharing the coerced value 1
do NOT collapse to a single entry — the final list re-expands the sorted
value list with its duplicates, producing two identical entries (both with
the last-written label "b"), so the final list is not strictly sorted and
has a duplicate value. -/
theorem C3_scalepoints_counterexample :
    (_get_port_info ⟨[], [], [], []⟩ cxC3Port).map (fun r => r.2.2.scalePoints) =
      .ok (.norm [⟨1, "b"⟩, ⟨1, "b"⟩]) := by
  decide

/-- C3 (amended): every entry of a port's final normalized scale-point list
has its value within `[range.minimum, range.maximum]` and the list is sorted
ascending by value — non-strictly: declared points sharing a coerced value
are NOT collapsed (one entry per retained point), and each entry's label is
the one stored in the value-to-label mapping, i.e. the label of the last
retained point with that value. -/
theorem C3_scalepoints_amended (ctx : Ctx) (port : RawPort) (ctx' : Ctx)
    (types : List String) (info : PortInfo) (l : List ScalePoint)
    (hok : _get_port_info ctx port = .ok (ctx', types, info))
    (hg : (types.contains "Control" || types.contains "CV") = true)
    (hnorm : info.scalePoints = .norm l) :
    ∃ rg pn sps, info.ranges = some rg ∧ port.name = some pn ∧
      port.scalePoints = some sps ∧
      (∀ e ∈ l, rg.minimum ≤ e.value ∧ e.value ≤ rg.maximum) ∧
      l.Pairwise (fun a b => a.value ≤ b.value) ∧
      (∀ e ∈ l, lookupLast (processScalePoints pn ((portProperties port).contains "integer")
        rg sps).1 e.value = some e.label) := by
  obtain ⟨pn, hn, hr, hsp, _⟩ := _get_port_info_control_inv ctx port ctx' types info hok hg
  cases hscl : port.scalePoints with
  | none =>
    rw [hscl] at hsp
    rw [hsp] at hnorm
    exact absurd hnorm (by simp [computeScalePoints])
  | some sps =>
    rw [hscl] at hsp
    rw [hnorm] at hsp
    obtain ⟨hb, hpw, hlab⟩ := computeScalePoints_norm_spec pn
      ((portProperties port).contains "integer") _ sps l hsp.symm
    exact ⟨_, pn, sps, hr, hn, rfl, hb, hpw, hlab⟩

/-- Witness input for C3 (amended): two scale points declared out of order. -/
def wC3Port : RawPort :=
  { name := some "Mode2", symbol := some "mode2", shortName := none, oldShortName := false,
    rdfTypes := ["http://lv2plug.in/ns/lv2core#InputPort", "http://lv2plug.in/ns/lv2core#ControlPort"],
    bufferType := none, supportsMidiEvent := false, comment := none, designation := none,
    modRangeSteps := none, ppropsRangeSteps := none,
    portProps := ["http://lv2plug.in/ns/lv2core#integer"],
    rdefault := some (.int 0), rmin := some (.int 0), rmax := some (.int 10),
    scalePoints := some [⟨some "b", some (.int 2)⟩, ⟨some "a", some (.int 1)⟩],
    unitURI := none, unitLabel := none, unitRender := none, unitSymbol := none }

/-- The descriptor produced for the C3 witness port. -/
def wC3Info : PortInfo :=
  { name := "Mode2", symbol := "mode2", ranges := some ⟨0, 10, 0⟩, units := none,
    comment := none, designation := none, properties := ["integer"], rangeSteps := none,
    scalePoints := .norm [⟨1, "a"⟩, ⟨2, "b"⟩], shortName := "Mode2", index := none }

theorem C3_scalepoints_amended_witness :
    ∃ rg pn sps, wC3Info.ranges = some rg ∧ wC3Port.name = some pn ∧
      wC3Port.scalePoints = some sps ∧
      (∀ e ∈ [(⟨1, "a"⟩ : ScalePoint), ⟨2, "b"⟩],
        rg.minimum ≤ e.value ∧ e.value ≤ rg.maximum) ∧
      List.Pairwise (fun a b => a.value ≤ b.value) [(⟨1, "a"⟩ : ScalePoint), ⟨2, "b"⟩] ∧
      (∀ e ∈ [(⟨1, "a"⟩ : ScalePoint), ⟨2, "b"⟩],
        lookupLast (processScalePoints pn ((portProperties wC3Port).contains "integer")
          rg sps).1 e.value = some e.label) :=
  C3_scalepoints_amended ⟨[], [], [], []⟩ wC3Port
    ⟨[], [], ["Mode2"], ["mode2"]⟩ ["Input", "Control"] wC3Info [⟨1, "a"⟩, ⟨2, "b"⟩]
    (by decide) (by decide) (by decide)

/-- An audio input port with the given name and symbol. -/
def audioPort (n s : String) : RawPort :=
  { name := some n, symbol := some s, shortName := none, oldShortName := false,
    rdfTypes := ["http://lv2plug.in/ns/lv2core#InputPort", "http://lv2plug.in/ns/lv2core#AudioPort"],
    bufferType := none, supportsMidiEvent := false, comment := none, designation := none,
    modRangeSteps := none, ppropsRangeSteps := none, portProps := [],
    rdefault := none, rmin := none, rmax := none,
    scalePoints := none, unitURI := none, unitLabel := none, unitRender := none, unitSymbol := none }

/-- C4: two ports named "Gain" (symbols g1, g2) produce NO duplicate-name
warning, because the source checks the port name against the set of seen
*symbols* (`if portname in portsymbols`) while the `portnames` set is only
written, never read.  A third port reusing symbol "g1" does produce the
duplicate-symbol error.  The claim's symbol half holds; its name half does
not: the warning list stays empty. -/
theorem C4_dup_name_no_warning :
    (_get_plugin_ports ⟨[], [], [], []⟩
        [audioPort "Gain" "g1", audioPort "Gain" "g2", audioPort "Other" "g1"]).map
      (fun r => (r.1.errors, r.1.warnings)) =
    .ok (["port symbol 'g1' is not unique"], []) := by
  decide

/-- Counterexample input for C5: a port whose name lookup returned nothing. -/
def c5Port : RawPort :=
  { name := none, symbol := some "nameless", shortName := none, oldShortName := false,
    rdfTypes := ["http://lv2plug.in/ns/lv2core#InputPort", "http://lv2plug.in/ns/lv2core#AudioPort"],
    bufferType := none, supportsMidiEvent := false, comment := none, designation := none,
    modRangeSteps := none, ppropsRangeSteps := none, portProps := [],
    rdefault := none, rmin := none, rmax := none,
    scalePoints := none, unitURI := none, unitLabel := none, unitRender := none, unitSymbol := none }

/-- C5: a port with no declared name does NOT degrade gracefully — the
source evaluates `"_%i" % index` where `index` is an undefined variable
(the `index = 0` left in `_get_plugin_ports` is a different, dead binding),
so validation dies with a `NameError` instead of synthesizing `"_<index>"`,
and the whole plugin extraction fails. -/
theorem C5_missing_name_crashes :
    _get_port_info ⟨[], [], [], []⟩ c5Port =
      .error (.nameError "name 'index' is not defined") ∧
    _get_plugin_ports ⟨[], [], [], []⟩ [c5Port] =
      .error (.nameError "name 'index' is not defined") := by
  constructor
  · decide
  · decide

/-- Counterexample input for C6: an enumeration port declaring two scale
points, both with out-of-bounds values. -/
def c6Port : RawPort :=
  { name := some "Enum", symbol := some "enum1", shortName := none, oldShortName := false,
    rdfTypes := ["http://lv2plug.in/ns/lv2core#InputPort", "http://lv2plug.in/ns/lv2core#ControlPort"],
    bufferType := none, supportsMidiEvent := false, comment := none, designation := none,
    modRangeSteps := none, ppropsRangeSteps := none,
    portProps := ["http://lv2plug.in/ns/ext/port-props#enumeration",
                  "http://lv2plug.in/ns/lv2core#integer"],
    rdefault := some (.int 0), rmin := some (.int 0), rmax := some (.int 10),
    scalePoints := some [⟨some "x", some (.int 20)⟩, ⟨some "y", some (.int 30)⟩],
    unitURI := none, unitLabel := none, unitRender := none, unitSymbol := none }

/-- C6: on `c6Port` zero scale points survive validation (both are dropped
as out of bounds), yet the "enumeration" flag is NOT removed and no
enumeration error is appended: since no point was kept, the `scalepoints`
variable still holds the raw collection of 2 declared points and
`len(scalepoints) <= 1` is false.  The raw collection also leaks into the
descriptor's scalePoints slot. -/
theorem C6_enumeration_not_stripped :
    (_get_port_info ⟨[], [], [], []⟩ c6Port).map
      (fun r => (r.2.2.properties, r.2.2.scalePoints,
        r.1.errors.contains
          "port 'Enum' wants to use enumeration but doesn't have enough values")) =
    .ok (["enumeration", "integer"],
         .raw [⟨some "x", some (.int 20)⟩, ⟨some "y", some (.int 30)⟩],
         false) := by
  decide

/-- Counterexample input for C8: `minimum=10, maximum=5, default=7` with the
integer property flag. -/
def c8Port : RawPort :=
  { name := some "P", symbol := some "p", shortName := none, oldShortName := false,
    rdfTypes := ["http://lv2plug.in/ns/lv2core#InputPort", "http://lv2plug.in/ns/lv2core#ControlPort"],
    bufferType := none, supportsMidiEvent := false, comment := none, designation := none,
    modRangeSteps := none, ppropsRangeSteps := none,
    portProps := ["http://lv2plug.in/ns/lv2core#integer"],
    rdefault := some (.int 7), rmin := some (.int 10), rmax := some (.int 5),
    scalePoints := none, unitURI := none, unitLabel := none, unitRender := none, unitSymbol := none }

/-- C8 counterexample: the scenario port `minimum=10, maximum=5, default=7,
integer` does NOT retain default 7: after the maximum is corrected to 11, the
bounds are [10, 11] and 7 lies below them, so the default is clamped to 10. -/
theorem C8_scenario_counterexample :
    (_get_port_info ⟨[], [], [], []⟩ c8Port).map (fun r => r.2.2.ranges) =
      .ok (some ⟨10, 11, 10⟩) ∧ ((10 : Rat) = 7) = False := by
  constructor
  · decide
  · decide

/-- C8 (amended): the scenario port yields `maximum = 11` with the
minimum-not-below-maximum error, and the default 7 — which lies outside the
corrected bounds [10, 11] — is replaced by the minimum 10 with a second
error about the default being out of bounds. -/
theorem C8_scenario_amended :
    (_get_port_info ⟨[], [], [], []⟩ c8Port).map (fun r => (r.2.2.ranges, r.1.errors)) =
      .ok (some ⟨10, 11, 10⟩,
        ["port 'P' minimum value is equal or higher than its maximum",
         "port 'P' default value is out of bounds"]) := by
  decide

/-! ## Key-set lemmas for the ports mapping -/

theorem dictContains_iff {α : Type} (d : List (String × α)) (k : String) :
    dictContains d k = true ↔ ∃ e ∈ d, e.1 = k := by
  unfold dictContains
  rw [List.find?_isSome]
  simp [beq_iff_eq]

theorem dictContains_append_single {α : Type} (d : List (String × α)) (typ k : String) (v : α) :
    dictContains (d ++ [(typ, v)]) k = true ↔ (dictContains d k = true ∨ k = typ) := by
  rw [dictContains_iff, dictContains_iff]
  constructor
  · rintro ⟨e, he, hek⟩
    rcases List.mem_append.mp he with h | h
    · exact Or.inl ⟨e, h, hek⟩
    · right
      rw [List.mem_singleton.mp h] at hek
      exact hek.symm
  · rintro (⟨e, he, hek⟩ | hkk)
    · exact ⟨e, List.mem_append.mpr (Or.inl he), hek⟩
    · exact ⟨(typ, v), List.mem_append.mpr (Or.inr (List.mem_singleton.mpr rfl)), hkk.symm⟩

theorem dictContains_dictSet {α : Type} (d : List (String × α)) (k k' : String) (v : α) :
    dictContains (dictSet d k v) k' = true ↔ (dictContains d k' = true ∨ k' = k) := by
  unfold dictSet
  split
  · rename_i hpres
    rw [dictContains_iff, dictContains_iff]
    constructor
    · rintro ⟨e, he, hek⟩
      obtain ⟨a, ha, hae⟩ := List.mem_map.mp he
      by_cases h : a.1 == k
      · right
        rw [← hek, ← hae]
        simp [h]
      · left
        refine ⟨a, ha, ?_⟩
        rw [if_neg h] at hae
        rw [hae]
        exact hek
    · rintro (⟨e, he, hek⟩ | hkk)
      · by_cases h : e.1 == k
        · refine ⟨(k, v), List.mem_map.mpr ⟨e, he, by rw [if_pos h]⟩, ?_⟩
          rw [← hek]
          exact (beq_iff_eq.mp h).symm
        · exact ⟨e, List.mem_map.mpr ⟨e, he, by rw [if_neg h]⟩, hek⟩
      · obtain ⟨e, he, hek⟩ := (dictContains_iff d k).mp hpres
        exact ⟨(k, v), List.mem_map.mpr ⟨e, he, by rw [if_pos (beq_iff_eq.mpr hek)]⟩, hkk.symm⟩
  · exact dictContains_append_single d k k' v

theorem dictContains_appendPortInfo (d : List (String × PortsIO)) (typ k : String)
    (is_input : Bool) (info : PortInfo) :
    dictContains (appendPortInfo d typ is_input info) k = true ↔
      (dictContains d k = true ∨ k = typ) := by
  unfold appendPortInfo
  rw [dictContains_dictSet]
  split
  · exact Iff.rfl
  · rw [dictContains_append_single]
    tauto

theorem dictContains_foldl_appendPortInfo (keys : List String) (d : List (String × PortsIO))
    (is_input : Bool) (info : PortInfo) (k : String) :
    dictContains (keys.foldl (fun acc typ => appendPortInfo acc typ is_input info) d) k = true ↔
      (dictContains d k = true ∨ k ∈ keys) := by
  induction keys generalizing d with
  | nil => simp
  | cons t ts ih =>
    rw [List.foldl_cons, ih, dictContains_appendPortInfo]
    simp only [List.mem_cons]
    tauto

/-- The lowered class keys a port contributes to the ports mapping. -/
def rawPortKeys (rp : RawPort) : List String :=
  portKeys (portTypes rp) ((portTypes rp).contains "Input")

/-- Characterization of the key set built by the port loop: a key is present
at the end iff it was present initially or some processed port contributed
it. -/
theorem portsGo_contains (rs : List RawPort) : ∀ ctx d i ctx' D,
    portsGo ctx d i rs = .ok (ctx', D) → ∀ k,
    dictContains D k = true ↔
      (dictContains d k = true ∨ ∃ rp ∈ rs, k ∈ rawPortKeys rp) := by
  induction rs with
  | nil =>
    intro ctx d i ctx' D hok k
    unfold portsGo at hok
    injection hok with h
    injection h with h1 h2
    rw [← h2]
    simp
  | cons rp rest ih =>
    intro ctx d i ctx' D hok k
    unfold portsGo at hok
    cases hpi : _get_port_info ctx rp with
    | error e => rw [hpi] at hok; exact absurd hok (by simp)
    | ok res =>
      obtain ⟨ctx1, types, info0⟩ := res
      rw [hpi] at hok
      dsimp only at hok
      split at hok
      · have hrec := ih ctx1 _ (i + 1) ctx' D hok k
        rw [hrec, dictContains_foldl_appendPortInfo]
        have hty : types = portTypes rp := _get_port_info_types_eq _ _ _ _ _ hpi
        subst hty
        constructor
        · rintro ((hd | hkeys) | ⟨rp', hrp', hk⟩)
          · exact Or.inl hd
          · exact Or.inr ⟨rp, List.mem_cons_self rp rest, hkeys⟩
          · exact Or.inr ⟨rp', List.mem_cons_of_mem rp hrp', hk⟩
        · rintro (hd | ⟨rp', hmem, hk⟩)
          · exact Or.inl (Or.inl hd)
          · rcases List.mem_cons.mp hmem with heq | hmem'
            · subst heq
              exact Or.inl (Or.inr hk)
            · exact Or.inr ⟨rp', hmem', hk⟩
      · exact absurd hok (by simp)

/-- C10: the ports mapping produced by `_get_plugin_ports` always contains
the keys "audio", "control" and "midi" (each bound to a record that has both
an input and an output list by construction), and any other key is present
only because some port of the plugin is classified under it. -/
theorem C10_ports_mapping_keys (ctx : Ctx) (rs : List RawPort) (ctx' : Ctx)
    (D : List (String × PortsIO))
    (hok : _get_plugin_ports ctx rs = .ok (ctx', D)) :
    dictContains D "audio" = true ∧ dictContains D "control" = true ∧
    dictContains D "midi" = true ∧
    ∀ k, dictContains D k = true →
      k = "audio" ∨ k = "control" ∨ k = "midi" ∨ ∃ rp ∈ rs, k ∈ rawPortKeys rp := by
  unfold _get_plugin_ports at hok
  have hiff := portsGo_contains rs _ _ _ _ _ hok
  refine ⟨?_, ?_, ?_, ?_⟩
  · exact (hiff "audio").mpr (Or.inl (by decide))
  · exact (hiff "control").mpr (Or.inl (by decide))
  · exact (hiff "midi").mpr (Or.inl (by decide))
  · intro k hk
    rcases (hiff k).mp hk with hbase | hex
    · obtain ⟨e, he, hek⟩ := (dictContains_iff portsInit k).mp hbase
      subst hek
      simp only [portsInit, List.mem_cons, List.mem_singleton] at he
      rcases he with he | he | he | he
      · exact Or.inl (by rw [he])
      · exact Or.inr (Or.inl (by rw [he]))
      · exact Or.inr (Or.inr (Or.inl (by rw [he])))
      · exact absurd he (by simp)
    · exact Or.inr (Or.inr (Or.inr hex))

theorem C10_ports_mapping_keys_witness :
    dictContains portsInit "audio" = true ∧ dictContains portsInit "control" = true ∧
    dictContains portsInit "midi" = true ∧
    ∀ k, dictContains portsInit k = true →
      k = "audio" ∨ k = "control" ∨ k = "midi" ∨ ∃ rp ∈ ([] : List RawPort), k ∈ rawPortKeys rp :=
  C10_ports_mapping_keys ⟨[], [], [], []⟩ [] ⟨[], [], [], []⟩ portsInit (by decide)

/-! ## The string order is total and transitive -/

theorem charListLe_total : ∀ a b, charListLe a b = true ∨ charListLe b a = true := by
  intro a
  induction a with
  | nil => intro b; exact Or.inl rfl
  | cons x xs ih =>
    intro b
    cases b with
    | nil => exact Or.inr rfl
    | cons y ys =>
      by_cases h1 : x.toNat < y.toNat
      · left
        simp [charListLe, h1]
      · by_cases h2 : y.toNat < x.toNat
        · right
          simp [charListLe, h2]
        · rcases ih ys with h | h
          · left
            simp [charListLe, h1, h2, h]
          · right
            simp [charListLe, h1, h2, h]

theorem charListLe_trans :
    ∀ a b c, charListLe a b = true → charListLe b c = true → charListLe a c = true := by
  intro a
  induction a with
  | nil => intro b c _ _; rfl
  | cons x xs ih =>
    intro b c hab hbc
    cases b with
    | nil => simp [charListLe] at hab
    | cons y ys =>
      cases c with
      | nil => simp [charListLe] at hbc
      | cons z zs =>
        simp only [charListLe] at hab hbc ⊢
        by_cases hxy : x.toNat < y.toNat <;> by_cases hyz : y.toNat < z.toNat <;>
          by_cases hyx : y.toNat < x.toNat <;> by_cases hzy : z.toNat < y.toNat <;>
          simp_all <;>
          first
          | (have : x.toNat < z.toNat := by omega
             simp [this])
          | (exact ih ys zs (by simp_all) (by simp_all))
          | (exact Or.inr ⟨by omega, ih ys zs hab hbc⟩)

instance : IsTotal String strLe :=
  ⟨fun a b => by
    unfold strLe
    rcases charListLe_total a.data b.data with h | h
    · exact Or.inl h
    · exact Or.inr h⟩

instance : IsTrans String strLe :=
  ⟨fun a b c hab hbc => charListLe_trans a.data b.data c.data hab hbc⟩

/-- `sorted(...)` output is sorted in the Python string order. -/
theorem pySortedStrs_sorted (l : List String) : List.Pairwise strLe (pySortedStrs l) :=
  List.sorted_insertionSort strLe l

/-- A plugin with complete identity facts and no ports. -/
def emptyPlugin : RawPlugin :=
  { uri := some "urn:p", name := some "Plug", modLabel := some "Plug",
    authorName := none, authorEmail := none, authorHomepage := none,
    binary := some "/usr/lib/lv2/p.so", brand := some "B", license := some "MIT",
    comment := some "c", microver := [0], minorver := [2],
    categories := [], bundlePathRaw := "/usr/lib/lv2/p.lv2", dataDirs := [],
    ports := [], presets := [], readable := [], writable := [], propDefs := [] }

/-- A Control port declaring one scale point that has no label. -/
def ctrlPortNoLabelSP (n s : String) : RawPort :=
  { name := some n, symbol := some s, shortName := none, oldShortName := false,
    rdfTypes := ["http://lv2plug.in/ns/lv2core#InputPort", "http://lv2plug.in/ns/lv2core#ControlPort"],
    bufferType := none, supportsMidiEvent := false, comment := none, designation := none,
    modRangeSteps := none, ppropsRangeSteps := none,
    portProps := ["http://lv2plug.in/ns/lv2core#integer"],
    rdefault := some (.int 0), rmin := some (.int 0), rmax := some (.int 10),
    scalePoints := some [⟨none, some (.int 1)⟩],
    unitURI := none, unitLabel := none, unitRender := none, unitSymbol := none }

/-- Counterexample input for C7: two ports that each raise the identical
message "a port scalepoint is missing its label". -/
def cxC7Plugin : RawPlugin :=
  { emptyPlugin with ports := [ctrlPortNoLabelSP "A" "a", ctrlPortNoLabelSP "B" "b"] }

/-- C7 counterexample: the final errors collection is produced by
`sorted(errors)` with no deduplication, so the identical message raised by
two different ports appears twice in the returned descriptor. -/
theorem C7_diagnostics_counterexample :
    (_get_plugin_info cxC7Plugin).map
      (fun d => (d.errors, d.errors.count "a port scalepoint is missing its label")) =
    .ok (["a port scalepoint is missing its label",
          "a port scalepoint is missing its label"], 2) := by
  decide

/-- C7 (amended): in every returned descriptor the errors and the warnings
collections are sorted lexicographically ascending; they are NOT
deduplicated — a message raised twice appears twice. -/
theorem C7_diagnostics_sorted_amended (p : RawPlugin) (d : PluginDescriptor)
    (hok : _get_plugin_info p = .ok d) :
    List.Pairwise strLe d.errors ∧ List.Pairwise strLe d.warnings := by
  unfold _get_plugin_info at hok
  dsimp only at hok
  repeat' split at hok
  all_goals
    first
    | exact Except.noConfusion hok
    | (injection hok with h
       rw [← h]
       exact ⟨pySortedStrs_sorted _, pySortedStrs_sorted _⟩)

/-- The descriptor produced for `emptyPlugin`. -/
def emptyPluginDescriptor : PluginDescriptor :=
  { uri := some "urn:p", name := some "Plug", binary := some "/usr/lib/lv2/p.so",
    brand := some "B", label := some "Plug", license := some "MIT", comment := some "c",
    category := [], microVersion := 0, minorVersion := 2, version := "2.0",
    stability := "stable", authorName := none, authorEmail := none, authorHomepage := none,
    bundles := ["/usr/lib/lv2/p.lv2"],
    ports := [("audio", ⟨[], []⟩), ("control", ⟨[], []⟩), ("midi", ⟨[], []⟩)],
    presets := [], properties := [], errors := [], warnings := [] }

theorem C7_diagnostics_sorted_amended_witness :
    List.Pairwise strLe emptyPluginDescriptor.errors ∧
    List.Pairwise strLe emptyPluginDescriptor.warnings :=
  C7_diagnostics_sorted_amended emptyPlugin emptyPluginDescriptor (by decide)

/-! ## Raw facts corresponding to a normalized descriptor (for idempotence)

`refactsPort`/`refactsPlugin` rebuild, from a normalized descriptor, raw
metadata facts that declare exactly what the descriptor shows — the input a
plugin author would write to express the normalized values. -/

/-- A numeric fact carrying the domain of the port: integer-domain values are
declared as integer literals, float-domain values as float literals. -/
def ratLit (is_int : Bool) (q : Rat) : Lit :=
  if is_int then .int q.num else .flt q

/-- Raw `mod:rangeSteps` fact corresponding to a range-steps entry. -/
def refactsModRangeSteps : Option String → Option String
  | some s => if s = "" then none else some s
  | none => none

/-- Raw `pprops:rangeSteps` fact corresponding to a range-steps entry. -/
def refactsPpropsRangeSteps : Option String → Option String
  | some s => if s = "" then some "" else none
  | none => none

/-- Raw scale-point facts corresponding to a scale-point slot. -/
def refactsSP (is_int : Bool) : SPField → Option (List RawScalePoint)
  | .initList => none
  | .pyNone => none
  | .raw l => some l
  | .norm l => some (l.map (fun e => ⟨some e.label, some (ratLit is_int e.value)⟩))

/-- Raw port facts corresponding to a normalized port descriptor classified
under the given type tags. -/
def refactsPort (info : PortInfo) (types : List String) : RawPort :=
  let is_int := info.properties.contains "integer"
  { name := some info.name,
    symbol := some info.symbol,
    shortName := if info.shortName = strTake info.name 16 then none else some info.shortName,
    oldShortName := false,
    rdfTypes := types.map (fun t => "#" ++ t ++ "Port"),
    bufferType := none,
    supportsMidiEvent := false,
    comment := info.comment,
    designation := info.designation,
    modRangeSteps := refactsModRangeSteps info.rangeSteps,
    ppropsRangeSteps := refactsPpropsRangeSteps info.rangeSteps,
    portProps := info.properties.map (fun t => "#" ++ t),
    rdefault := (info.ranges.map (fun rg => ratLit is_int rg.default)),
    rmin := (info.ranges.map (fun rg => ratLit is_int rg.minimum)),
    rmax := (info.ranges.map (fun rg => ratLit is_int rg.maximum)),
    scalePoints := refactsSP is_int info.scalePoints,
    unitURI := info.units.map (fun _ => "urn:unit"),
    unitLabel := info.units.map (fun u => u.label),
    unitRender := info.units.map (fun u => u.render),
    unitSymbol := info.units.map (fun u => u.symbol) }

/-! ### String roundtrip lemmas -/

theorem dropWhile_of_isPrefix_of_eq_self (p : Char → Bool) (l r : List Char)
    (hpre : r <+: l) (hl : l.dropWhile p = l) : r.dropWhile p = r := by
  cases r with
  | nil => rfl
  | cons a r' =>
    cases l with
    | nil => exact absurd hpre.length_le (by simp)
    | cons b l' =>
      have hab : a = b := by
        obtain ⟨t, ht⟩ := hpre
        exact (List.cons.injEq a (r' ++ t) b l').mp (by simpa using ht) |>.1
      have hb : ¬ p b = true := by
        intro hpb
        rw [List.dropWhile_cons_of_pos hpb] at hl
        have := congrArg List.length hl
        have hle := (List.dropWhile_suffix (l := l') p).length_le
        simp at this
        omega
      rw [hab]
      exact List.dropWhile_cons_of_neg hb

theorem pyStrip_idempotent (s : String) : pyStrip (pyStrip s) = pyStrip s := by
  have h2 : ∀ l : List Char,
      (((l.dropWhile Char.isWhitespace).reverse.dropWhile Char.isWhitespace).reverse).dropWhile
        Char.isWhitespace =
      ((l.dropWhile Char.isWhitespace).reverse.dropWhile Char.isWhitespace).reverse := by
    intro l
    have hpre : ((l.dropWhile Char.isWhitespace).reverse.dropWhile
        Char.isWhitespace).reverse <+: l.dropWhile Char.isWhitespace := by
      have := List.dropWhile_suffix (l := (l.dropWhile Char.isWhitespace).reverse)
        Char.isWhitespace
      rw [← List.reverse_prefix] at this
      simpa using this
    exact dropWhile_of_isPrefix_of_eq_self Char.isWhitespace _ _ hpre
      (List.dropWhile_idempotent Char.isWhitespace l)
  show (⟨_⟩ : String) = ⟨_⟩
  congr 1
  show ((((((s.data.dropWhile Char.isWhitespace).reverse.dropWhile
      Char.isWhitespace).reverse).dropWhile Char.isWhitespace).reverse.dropWhile
      Char.isWhitespace)).reverse =
    ((s.data.dropWhile Char.isWhitespace).reverse.dropWhile Char.isWhitespace).reverse
  rw [h2 s.data]
  simp only [List.reverse_reverse]
  rw [List.dropWhile_idempotent]

theorem getfirst_idempotent (x : Option String) : getfirst (getfirst x) = getfirst x := by
  cases x with
  | none => rfl
  | some s =>
    simp [getfirst, pyStrip_idempotent]

theorem node2str_getfirst (x : Option String) : node2str (getfirst x) = getfirst x :=
  getfirst_idempotent x

theorem string_eta (s : String) : (⟨s.data⟩ : String) = s := rfl

theorem afterLastHash_no_hash (s : String) : ∀ c ∈ (afterLastHash s).data, c ≠ '#' := by
  intro c hc
  unfold afterLastHash at hc
  rw [show ((⟨(s.data.reverse.takeWhile (fun c => c != '#')).reverse⟩ : String)).data =
      (s.data.reverse.takeWhile (fun c => c != '#')).reverse from rfl,
    List.mem_reverse] at hc
  have := List.mem_takeWhile_imp hc
  simpa using this

theorem afterLastHash_hash_append (c : String) (h : ∀ ch ∈ c.data, ch ≠ '#') :
    afterLastHash ("#" ++ c) = c := by
  unfold afterLastHash
  have hdata : ("#" ++ c).data = '#' :: c.data := by
    rw [String.data_append]
    rfl
  rw [hdata]
  rw [show ('#' :: c.data).reverse = c.data.reverse ++ ['#'] by simp]
  rw [List.takeWhile_append_of_pos (by
    intro a ha
    simp only [List.mem_reverse] at ha
    simpa using h a ha)]
  rw [show List.takeWhile (fun ch => ch != '#') ['#'] = [] from rfl]
  rw [List.append_nil, List.reverse_reverse]

theorem parseType_roundtrip (c : String) (h : ∀ ch ∈ c.data, ch ≠ '#') :
    strDropRight (afterLastHash ("#" ++ c ++ "Port")) 4 = c := by
  unfold afterLastHash strDropRight
  have hdata : ("#" ++ c ++ "Port").data = '#' :: (c.data ++ ['P', 'o', 'r', 't']) := by
    rw [String.data_append, String.data_append]
    rfl
  rw [hdata]
  rw [show ('#' :: (c.data ++ ['P', 'o', 'r', 't'])).reverse =
      (['t', 'r', 'o', 'P'] ++ c.data.reverse) ++ ['#'] by simp]
  rw [List.takeWhile_append_of_pos (by
    intro a ha
    rcases List.mem_append.mp ha with ha | ha
    · fin_cases ha <;> decide
    · simp only [List.mem_reverse] at ha
      simpa using h a ha)]
  rw [show List.takeWhile (fun ch => ch != '#') ['#'] = [] from rfl]
  rw [List.append_nil]
  rw [show ((['t', 'r', 'o', 'P'] ++ c.data.reverse).reverse : List Char) =
      c.data ++ ['P', 'o', 'r', 't'] by simp]
  rw [show (⟨c.data ++ ['P', 'o', 'r', 't']⟩ : String).data = c.data ++ ['P', 'o', 'r', 't']
    from rfl]
  rw [List.length_append]
  rw [show (['P', 'o', 'r', 't'] : List Char).length = 4 from rfl]
  rw [Nat.add_sub_cancel, List.take_left]

/-! ### Stage roundtrip lemmas for idempotence -/

/-- The coerced scale-point value does not depend on the port name. -/
theorem coerceScalePointValue_val_pn_irrel (pn pn' label : String) (is_int : Bool) (xval : Lit) :
    (coerceScalePointValue pn label is_int xval).1 =
      (coerceScalePointValue pn' label is_int xval).1 := by
  unfold coerceScalePointValue
  cases is_int with
  | false => cases xval <;> rfl
  | true =>
    cases xval with
    | int n => rfl
    | flt q =>
      show (if q.den = 1 then _ else (_ : Rat × List String × List String)).1 =
        (if q.den = 1 then _ else (_ : Rat × List String × List String)).1
      split <;> rfl

/-- In the integer domain the coerced scale-point value is integer-valued. -/
theorem coerceScalePointValue_int_den (pn label : String) (xval : Lit) :
    (coerceScalePointValue pn label true xval).1.den = 1 := by
  unfold coerceScalePointValue
  cases xval with
  | int n => exact Rat.den_intCast n
  | flt q =>
    show (if q.den = 1 then _ else (_ : Rat × List String × List String)).1.den = 1
    split <;> exact Rat.den_intCast _

/-- The kept pairs of the scale-point loop do not depend on the port name
(it only appears in messages). -/
theorem processScalePoints_kept_pn_irrel (pn pn' : String) (is_int : Bool) (rg : RangeSpec) :
    ∀ sps : List RawScalePoint,
      (processScalePoints pn is_int rg sps).1 = (processScalePoints pn' is_int rg sps).1 := by
  intro sps
  induction sps with
  | nil => rfl
  | cons sp rest ih =>
    unfold processScalePoints
    rcases h1 : processScalePoints pn is_int rg rest with ⟨k1, e1, w1⟩
    rcases h2 : processScalePoints pn' is_int rg rest with ⟨k2, e2, w2⟩
    have hk : k1 = k2 := by
      rw [h1, h2] at ih
      exact ih
    simp only [h1, h2]
    cases node2str sp.label with
    | none => simpa using hk
    | some label =>
      cases sp.value with
      | none => simpa using hk
      | some xval =>
        dsimp only
        rw [coerceScalePointValue_val_pn_irrel pn pn' label is_int xval]
        split <;> simp [hk]

/-- The coerced value of a scale point is an integer-valued rational in the
integer domain, and its label (after strip) is strip-invariant. -/
theorem processScalePoints_kept_spec (pn : String) (is_int : Bool) (rg : RangeSpec) :
    ∀ sps : List RawScalePoint, ∀ p ∈ (processScalePoints pn is_int rg sps).1,
      (is_int = true → p.1.den = 1) ∧ pyStrip p.2 = p.2 := by
  intro sps
  induction sps with
  | nil => intro p hp; simp [processScalePoints] at hp
  | cons sp rest ih =>
    intro p hp
    unfold processScalePoints at hp
    rcases hr : processScalePoints pn is_int rg rest with ⟨keptR, errsR, warnsR⟩
    rw [hr] at hp
    have ihr : ∀ q ∈ keptR, (is_int = true → q.1.den = 1) ∧ pyStrip q.2 = q.2 := by
      intro q hq
      exact ih q (by rw [hr]; exact hq)
    cases hl : node2str sp.label with
    | none => rw [hl] at hp; exact ihr p hp
    | some label =>
      rw [hl] at hp
      cases hv : sp.value with
      | none => rw [hv] at hp; exact ihr p hp
      | some xval =>
        rw [hv] at hp
        dsimp only at hp
        rcases hcv : coerceScalePointValue pn label is_int xval with ⟨v, e1, w1⟩
        rw [hcv] at hp
        dsimp only at hp
        split at hp
        · rcases List.mem_cons.mp hp with hpc | hpr
          · subst hpc
            constructor
            · intro hint
              subst hint
              have hd := coerceScalePointValue_int_den pn label xval
              rw [hcv] at hd
              exact hd
            · have hlab : label = pyStrip (sp.label.getD "") := by
                cases hsl : sp.label with
                | none => rw [hsl] at hl; exact absurd hl (by simp [node2str])
                | some raw =>
                  rw [hsl] at hl
                  simp [node2str] at hl
                  rw [← hl]
                  rfl
              rw [hlab]
              exact pyStrip_idempotent _
          · exact ihr p hpr
        · exact ihr p hp

/-- Coercion of a refact numeric literal is the identity (no diagnostics). -/
theorem coerceValue_ratLit (is_int : Bool) (pn what : String) (q : Rat)
    (hden : is_int = true → q.den = 1) :
    coerceValue is_int pn what (ratLit is_int q) = (q, [], []) := by
  cases is_int with
  | false => rfl
  | true =>
    show (((q.num : Int) : Rat), ([] : List String), ([] : List String)) = (q, [], [])
    rw [(Rat.den_eq_one_iff q).mp (hden rfl)]

/-- Same fact for the scale-point coercion. -/
theorem coerceScalePointValue_ratLit (pn label : String) (is_int : Bool) (q : Rat)
    (hden : is_int = true → q.den = 1) :
    coerceScalePointValue pn label is_int (ratLit is_int q) = (q, [], []) := by
  cases is_int with
  | false => rfl
  | true =>
    show (((q.num : Int) : Rat), ([] : List String), ([] : List String)) = (q, [], [])
    rw [(Rat.den_eq_one_iff q).mp (hden rfl)]

/-- In the integer domain every component of the normalized range is an
integer-valued rational. -/
theorem computeRanges_int_den (pn : String) (types properties : List String)
    (designation : Option String) (xdefault xminimum xmaximum : Option Lit)
    (hint : properties.contains "integer" = true) :
    (computeRanges pn types properties designation xdefault xminimum xmaximum).1.minimum.den = 1 ∧
    (computeRanges pn types properties designation xdefault xminimum xmaximum).1.maximum.den = 1 ∧
    (computeRanges pn types properties designation xdefault xminimum xmaximum).1.default.den = 1 := by
  have hcv : ∀ what x, (coerceValue (properties.contains "integer") pn what x).1.den = 1 := by
    intro what x
    rw [hint]
    unfold coerceValue
    simp only [if_pos rfl]
    rcases hci : coerceIntValue pn what x with ⟨n, e, w⟩
    exact Rat.den_intCast n
  have hadd : ∀ a : Rat, a.den = 1 →
      (ratAdd a (if properties.contains "integer" = true then 1 else mkRat 1 10)).den = 1 := by
    intro a ha
    rw [hint, if_pos rfl]
    unfold ratAdd
    rw [ha]
    simp only [Rat.num_one, Rat.den_one, Nat.cast_one, mul_one, one_mul, Rat.mkRat_one]
    exact Rat.den_intCast _
  unfold computeRanges
  cases xminimum with
  | none =>
    cases xmaximum <;> dsimp only <;> rw [hint] <;> simp
  | some xmin =>
    cases xmaximum with
    | none => dsimp only; rw [hint]; simp
    | some xmax =>
      dsimp only
      rcases hmin : coerceValue (properties.contains "integer") pn "minimum" xmin with
        ⟨minv, emin, wmin⟩
      rcases hmax : coerceValue (properties.contains "integer") pn "maximum" xmax with
        ⟨maxv0, emax, wmax⟩
      simp only [hmin, hmax]
      have hminden : minv.den = 1 := by
        have := hcv "minimum" xmin
        rw [hmin] at this
        exact this
      have hmaxden : maxv0.den = 1 := by
        have := hcv "maximum" xmax
        rw [hmax] at this
        exact this
      by_cases hord : maxv0 ≤ minv <;>
        [simp only [if_pos hord]; simp only [if_neg hord]] <;>
      · cases xdefault with
        | none => exact ⟨hminden, by first | exact hadd minv hminden | exact hmaxden, hminden⟩
        | some xdef =>
          dsimp only
          rcases hdef : coerceValue (properties.contains "integer") pn "default" xdef with
            ⟨dv0, edef, wdef⟩
          simp only [hdef]
          have hdvden : dv0.den = 1 := by
            have := hcv "default" xdef
            rw [hdef] at this
            exact this
          refine ⟨hminden, by first | exact hadd minv hminden | exact hmaxden, ?_⟩
          split_ifs <;> first | exact hdvden | exact hminden

/-- When every kept pair's label is a function of its value, the
value-to-label mapping looks up exactly that function. -/
theorem lookupLast_of_label_fun (kept : List (Rat × String)) (f : Rat → String)
    (hf : ∀ p ∈ kept, p.2 = f p.1) (v : Rat) (hv : v ∈ kept.map Prod.fst) :
    lookupLast kept v = some (f v) := by
  obtain ⟨s, hs⟩ := lookupLast_isSome kept v hv
  rw [hs]
  unfold lookupLast at hs
  cases hg : (kept.filter (fun p => p.1 == v)).getLast? with
  | none => rw [hg] at hs; exact absurd hs (by simp)
  | some p =>
    rw [hg] at hs
    have hpmem : p ∈ kept.filter (fun p => p.1 == v) := List.mem_of_mem_getLast? hg
    have hp1 : p.1 = v := by
      have := List.of_mem_filter hpmem
      exact beq_iff_eq.mp this
    have hpk : p ∈ kept := List.mem_of_mem_filter hpmem
    have : s = p.2 := by
      simp at hs
      exact hs.symm
    rw [this, hf p hpk, hp1]

/-- The roundtrip of the range normalizer: re-running it on facts declaring
the normalized minimum/maximum/default (in the port's numeric domain)
reproduces the same range record, for any port name, type tags and
designation, as long as the property flags keep the same "integer" and
"sampleRate" membership. -/
theorem computeRanges_roundtrip (pn : String) (types properties : List String)
    (designation : Option String) (xdefault xminimum xmaximum : Option Lit)
    (pn' : String) (types' properties' : List String) (designation' : Option String)
    (hint : properties'.contains "integer" = properties.contains "integer")
    (hsr : properties'.contains "sampleRate" = properties.contains "sampleRate") :
    (computeRanges pn' types' properties' designation'
      (some (ratLit (properties.contains "integer")
        (computeRanges pn types properties designation xdefault xminimum xmaximum).1.default))
      (some (ratLit (properties.contains "integer")
        (computeRanges pn types properties designation xdefault xminimum xmaximum).1.minimum))
      (some (ratLit (properties.contains "integer")
        (computeRanges pn types properties designation xdefault xminimum xmaximum).1.maximum))).1 =
    (computeRanges pn types properties designation xdefault xminimum xmaximum).1 := by
  rcases hrg : (computeRanges pn types properties designation xdefault xminimum xmaximum).1 with
    ⟨minv, maxv, dv⟩
  have hlt : minv < maxv := by
    have := computeRanges_min_lt_max pn types properties designation xdefault xminimum xmaximum
    rw [hrg] at this
    exact this
  have hden : properties.contains "integer" = true →
      minv.den = 1 ∧ maxv.den = 1 ∧ dv.den = 1 := by
    intro h
    have := computeRanges_int_den pn types properties designation xdefault xminimum xmaximum h
    rw [hrg] at this
    exact this
  have hdc : ((if properties.contains "sampleRate" = true then ratMul minv 48000 else minv) ≤ dv ∧
      dv ≤ (if properties.contains "sampleRate" = true then ratMul maxv 48000 else maxv)) ∨
      dv = minv := by
    have := computeRanges_default_cases pn types properties designation xdefault xminimum xmaximum
    rw [hrg] at this
    exact this
  unfold computeRanges
  dsimp only
  rw [hint, hsr]
  rw [coerceValue_ratLit _ pn' "minimum" minv (fun h => (hden h).1),
      coerceValue_ratLit _ pn' "maximum" maxv (fun h => (hden h).2.1),
      coerceValue_ratLit _ pn' "default" dv (fun h => (hden h).2.2)]
  dsimp only
  rw [if_neg (not_le.mpr hlt)]
  rcases hdc with hin | heq
  · rw [if_pos hin]
  · split_ifs <;> first | rfl | rw [heq]

theorem pyStrip_empty : pyStrip "" = "" := rfl

/-- Processing refact scale-point facts (stripped labels, in-bounds values in
the right domain) keeps every point, with no diagnostics. -/
theorem processScalePoints_refacts (pn : String) (is_int : Bool) (rg : RangeSpec) :
    ∀ L : List ScalePoint,
      (∀ e ∈ L, pyStrip e.label = e.label) →
      (∀ e ∈ L, is_int = true → e.value.den = 1) →
      (∀ e ∈ L, rg.minimum ≤ e.value ∧ e.value ≤ rg.maximum) →
      processScalePoints pn is_int rg
        (L.map (fun e => ⟨some e.label, some (ratLit is_int e.value)⟩)) =
      (L.map (fun e => (e.value, e.label)), [], []) := by
  intro L
  induction L with
  | nil => intro _ _ _; rfl
  | cons e rest ih =>
    intro hstrip hden hbounds
    have hrest := ih (fun x hx => hstrip x (List.mem_cons_of_mem e hx))
      (fun x hx => hden x (List.mem_cons_of_mem e hx))
      (fun x hx => hbounds x (List.mem_cons_of_mem e hx))
    rw [List.map_cons]
    unfold processScalePoints
    rw [hrest]
    dsimp only
    rw [show node2str (some e.label) = some (pyStrip e.label) from rfl]
    rw [hstrip e (List.mem_cons_self e rest)]
    dsimp only
    rw [coerceScalePointValue_ratLit pn e.label is_int e.value
      (fun h => hden e (List.mem_cons_self e rest) h)]
    dsimp only
    rw [if_pos (hbounds e (List.mem_cons_self e rest))]
    simp

theorem computeScalePoints_raw_case (pn : String) (is_int : Bool) (rg : RangeSpec)
    (sps : List RawScalePoint) (h : (processScalePoints pn is_int rg sps).1 = []) :
    (computeScalePoints pn is_int rg (some sps)).1 = .raw sps := by
  unfold computeScalePoints
  dsimp only
  rcases hk : processScalePoints pn is_int rg sps with ⟨kept, errs, warns⟩
  rw [hk] at h
  dsimp only at h
  rw [h]
  rfl

theorem computeScalePoints_norm_case (pn : String) (is_int : Bool) (rg : RangeSpec)
    (sps : List RawScalePoint) (kept : List (Rat × String))
    (hk : (processScalePoints pn is_int rg sps).1 = kept) (h : kept ≠ []) :
    (computeScalePoints pn is_int rg (some sps)).1 =
      .norm ((List.insertionSort (α := Rat) (· ≤ ·) (kept.map Prod.fst)).map
        (fun v => ⟨v, (lookupLast kept v).getD ""⟩)) := by
  unfold computeScalePoints
  dsimp only
  rcases hp : processScalePoints pn is_int rg sps with ⟨kept0, errs, warns⟩
  rw [hp] at hk
  dsimp only at hk
  subst hk
  rw [if_neg (by simpa [List.isEmpty_iff] using h)]

theorem lookupLast_strip (kept : List (Rat × String))
    (hst : ∀ p ∈ kept, pyStrip p.2 = p.2) (v : Rat) :
    pyStrip ((lookupLast kept v).getD "") = (lookupLast kept v).getD "" := by
  cases hg : lookupLast kept v with
  | none => exact pyStrip_empty
  | some s =>
    unfold lookupLast at hg
    cases hgl : (kept.filter (fun p => p.1 == v)).getLast? with
    | none => rw [hgl] at hg; exact absurd hg (by simp)
    | some p =>
      rw [hgl] at hg
      have hpk : p ∈ kept := List.mem_of_mem_filter (List.mem_of_mem_getLast? hgl)
      have hs : s = p.2 := by
        simp at hg
        exact hg.symm
      rw [Option.getD_some, hs]
      exact hst p hpk

/-- The roundtrip of the scale-point normalizer: re-running it on the raw
facts corresponding to its own output reproduces the output. -/
theorem computeScalePoints_roundtrip (pn pn' : String) (is_int : Bool) (rg : RangeSpec)
    (spsOpt : Option (List RawScalePoint)) :
    (computeScalePoints pn' is_int rg
      (refactsSP is_int (computeScalePoints pn is_int rg spsOpt).1)).1 =
    (computeScalePoints pn is_int rg spsOpt).1 := by
  cases spsOpt with
  | none => rfl
  | some sps =>
    rcases hk : processScalePoints pn is_int rg sps with ⟨kept, errs, warns⟩
    have hkept1 : (processScalePoints pn is_int rg sps).1 = kept := by rw [hk]
    have hkept_bounds : ∀ p ∈ kept, rg.minimum ≤ p.1 ∧ p.1 ≤ rg.maximum := by
      intro p hp
      exact processScalePoints_kept_bounds pn is_int rg sps p (by rw [hk]; exact hp)
    have hkept_spec : ∀ p ∈ kept, (is_int = true → p.1.den = 1) ∧ pyStrip p.2 = p.2 := by
      intro p hp
      exact processScalePoints_kept_spec pn is_int rg sps p (by rw [hk]; exact hp)
    by_cases hke : kept = []
    · have h1 : (computeScalePoints pn is_int rg (some sps)).1 = .raw sps :=
        computeScalePoints_raw_case pn is_int rg sps (by rw [hkept1]; exact hke)
      rw [h1]
      show (computeScalePoints pn' is_int rg (some sps)).1 = .raw sps
      refine computeScalePoints_raw_case pn' is_int rg sps ?_
      rw [← processScalePoints_kept_pn_irrel pn pn' is_int rg sps, hkept1]
      exact hke
    · set values := List.insertionSort (α := Rat) (· ≤ ·) (kept.map Prod.fst) with hvalues
      set f : Rat → ScalePoint := fun v => ⟨v, (lookupLast kept v).getD ""⟩ with hf
      have h1 : (computeScalePoints pn is_int rg (some sps)).1 = .norm (values.map f) :=
        computeScalePoints_norm_case pn is_int rg sps kept hkept1 hke
      rw [h1]
      have hvmem : ∀ v ∈ values, v ∈ kept.map Prod.fst := fun v hv =>
        (List.perm_insertionSort (α := Rat) (· ≤ ·) (kept.map Prod.fst)).mem_iff.mp hv
      have hmem_facts : ∀ e ∈ values.map f,
          (pyStrip e.label = e.label) ∧ (is_int = true → e.value.den = 1) ∧
          (rg.minimum ≤ e.value ∧ e.value ≤ rg.maximum) := by
        intro e he
        obtain ⟨v, hv, hev⟩ := List.mem_map.mp he
        obtain ⟨p, hp, hpv⟩ := List.mem_map.mp (hvmem v hv)
        subst hev
        refine ⟨lookupLast_strip kept (fun q hq => (hkept_spec q hq).2) v, ?_, ?_⟩
        · intro hint
          show v.den = 1
          rw [← hpv]
          exact (hkept_spec p hp).1 hint
        · show rg.minimum ≤ v ∧ v ≤ rg.maximum
          rw [← hpv]
          exact hkept_bounds p hp
      have hproc2 : processScalePoints pn' is_int rg
          ((values.map f).map (fun e => ⟨some e.label, some (ratLit is_int e.value)⟩)) =
          ((values.map f).map (fun e => (e.value, e.label)), [], []) :=
        processScalePoints_refacts pn' is_int rg (values.map f)
          (fun e he => (hmem_facts e he).1)
          (fun e he => (hmem_facts e he).2.1)
          (fun e he => (hmem_facts e he).2.2)
      set kept2 : List (Rat × String) := (values.map f).map (fun e => (e.value, e.label)) with hkept2
      have hkept2fst : kept2.map Prod.fst = values := by
        rw [hkept2, List.map_map, List.map_map]
        show values.map (fun v => v) = values
        simp
      have hsorted : List.Sorted (· ≤ ·) values :=
        List.sorted_insertionSort (α := Rat) (· ≤ ·) (kept.map Prod.fst)
      have hkept2ne : kept2 ≠ [] := by
        rw [hkept2]
        simp only [ne_eq, List.map_eq_nil_iff]
        intro hvnil
        have := (List.perm_insertionSort (α := Rat) (· ≤ ·) (kept.map Prod.fst))
        rw [← hvalues, hvnil] at this
        have := this.symm.eq_nil
        simp only [List.map_eq_nil_iff] at this
        exact hke this
      have h2 : (computeScalePoints pn' is_int rg
          (refactsSP is_int (SPField.norm (values.map f)))).1 =
          .norm ((List.insertionSort (α := Rat) (· ≤ ·) (kept2.map Prod.fst)).map
            (fun v => ⟨v, (lookupLast kept2 v).getD ""⟩)) := by
        refine computeScalePoints_norm_case pn' is_int rg _ kept2 ?_ hkept2ne
        show (processScalePoints pn' is_int rg
          ((values.map f).map (fun e => ⟨some e.label, some (ratLit is_int e.value)⟩))).1 = kept2
        rw [hproc2]
      rw [h2]
      congr 1
      rw [hkept2fst, hsorted.insertionSort_eq]
      refine List.map_congr_left ?_
      intro v hv
      have hlabfun : ∀ p ∈ kept2, p.2 = (f p.1).label := by
        intro p hp
        rw [hkept2] at hp
        obtain ⟨e, he, hep⟩ := List.mem_map.mp hp
        obtain ⟨v', hv', hev'⟩ := List.mem_map.mp he
        rw [← hep, ← hev']
      have hvk2 : v ∈ kept2.map Prod.fst := by
        rw [hkept2fst]
        exact hv
      have := lookupLast_of_label_fun kept2 (fun v => (f v).label) hlabfun v hvk2
      rw [this]
      rfl

/-! ### Enumeration-check, unit, type and property roundtrip lemmas -/

theorem contains_erase_ne (l : List String) (a b : String) (h : b ≠ a) :
    (l.erase a).contains b = l.contains b := by
  by_cases hm : b ∈ l
  · have e1 : (l.erase a).contains b = true :=
      List.elem_iff.mpr ((List.mem_erase_of_ne h).mpr hm)
    have e2 : l.contains b = true := List.elem_iff.mpr hm
    rw [e1, e2]
  · have h2 : b ∉ l.erase a := fun hx => hm (List.mem_of_mem_erase hx)
    have e1 : (l.erase a).contains b = false := by
      cases hcc : (l.erase a).contains b
      · rfl
      · exact absurd (List.elem_iff.mp hcc) h2
    have e2 : l.contains b = false := by
      cases hcc : l.contains b
      · rfl
      · exact absurd (List.elem_iff.mp hcc) hm
    rw [e1, e2]

/-- The enumeration check leaves the property list alone or erases one
`"enumeration"` entry. -/
theorem enumerationCheck_props (pn : String) (props : List String) (spf : SPField)
    (props2 errs : List String) (h : enumerationCheck pn props spf = .ok (props2, errs)) :
    props2 = props ∨ props2 = props.erase "enumeration" := by
  unfold enumerationCheck at h
  by_cases hc : props.contains "enumeration" = true
  · rw [if_pos hc] at h
    cases hlen : spFieldLen spf with
    | none => rw [hlen] at h; exact absurd h (by simp)
    | some n =>
      rw [hlen] at h
      dsimp only at h
      by_cases hn : n ≤ 1
      · rw [if_pos hn] at h
        simp only [Except.ok.injEq, Prod.mk.injEq] at h
        exact Or.inr h.1.symm
      · rw [if_neg hn] at h
        simp only [Except.ok.injEq, Prod.mk.injEq] at h
        exact Or.inl h.1.symm
  · rw [if_neg hc] at h
    simp only [Except.ok.injEq, Prod.mk.injEq] at h
    exact Or.inl h.1.symm

/-- Re-running the enumeration check on its own output property list (against
the same scale-point slot) succeeds and leaves the list unchanged, provided
`"enumeration"` was declared at most once. -/
theorem enumerationCheck_roundtrip (pn pn' : String) (props : List String) (spf : SPField)
    (props2 errs : List String) (hwf : props.count "enumeration" ≤ 1)
    (h : enumerationCheck pn props spf = .ok (props2, errs)) :
    ∃ errs', enumerationCheck pn' props2 spf = .ok (props2, errs') := by
  unfold enumerationCheck at h ⊢
  by_cases hc : props.contains "enumeration" = true
  · rw [if_pos hc] at h
    cases hlen : spFieldLen spf with
    | none => rw [hlen] at h; exact absurd h (by simp)
    | some n =>
      rw [hlen] at h
      dsimp only at h
      by_cases hn : n ≤ 1
      · rw [if_pos hn] at h
        simp only [Except.ok.injEq, Prod.mk.injEq] at h
        obtain ⟨h1, -⟩ := h
        have hmem : "enumeration" ∈ props := List.elem_iff.mp hc
        have hcount1 : props.count "enumeration" = 1 :=
          Nat.le_antisymm hwf (List.count_pos_iff.mpr hmem)
        have hnotmem : "enumeration" ∉ props.erase "enumeration" := by
          rw [← List.count_eq_zero, List.count_erase_self, hcount1]
        have hcf : props2.contains "enumeration" = false := by
          cases hcc : props2.contains "enumeration"
          · rfl
          · rw [← h1] at hcc
            exact absurd (List.elem_iff.mp hcc) hnotmem
        exact ⟨[], by rw [hcf, if_neg Bool.false_ne_true]⟩
      · rw [if_neg hn] at h
        simp only [Except.ok.injEq, Prod.mk.injEq] at h
        obtain ⟨h1, -⟩ := h
        subst h1
        refine ⟨[], ?_⟩
        rw [if_pos hc]
        dsimp only
        rw [if_neg hn]
  · rw [if_neg hc] at h
    simp only [Except.ok.injEq, Prod.mk.injEq] at h
    obtain ⟨h1, -⟩ := h
    subst h1
    exact ⟨[], by rw [if_neg hc]⟩

/-- The label/render/symbol/diagnostics quadruple of the unit block. -/
def unitParts (portname uuri : String) (unitLabel unitRender unitSymbol : Option String) :
    Option String × Option String × Option String × List String :=
  if pyStartsWith uuri NS_UNITS then
    let suffix := afterLastHash uuri
    match LV2_UNITS.find? (fun e => e.1 == suffix) with
    | none => (none, none, none,
               ["port '" ++ portname ++ "' has invalid lv2 unit '" ++ suffix ++ "'"])
    | some e => (some e.2.1, some e.2.2.1, some e.2.2.2, [])
  else
    let e1 : List String :=
      if unitLabel == none then ["port '" ++ portname ++ "' has custom unit with no label"]
      else []
    let e2 : List String :=
      if unitRender == none then ["port '" ++ portname ++ "' has custom unit with no render"]
      else []
    let e3 : List String :=
      if unitSymbol == none then ["port '" ++ portname ++ "' has custom unit with no symbol"]
      else []
    (unitLabel, unitRender, unitSymbol, e1 ++ e2 ++ e3)

/-- `computeUnits` phrased through `unitParts`. -/
theorem computeUnits_eq (portname : String) (types : List String)
    (unitURI unitLabel unitRender unitSymbol : Option String) :
    computeUnits portname types unitURI unitLabel unitRender unitSymbol =
    if types.contains "Control" then
      match unitURI with
      | none => (none, [])
      | some uuri =>
        let q := unitParts portname uuri unitLabel unitRender unitSymbol
        (if truthyOpt q.1 && truthyOpt q.2.1 && truthyOpt q.2.2.1 then
           some ⟨q.1.getD "", q.2.1.getD "", q.2.2.1.getD ""⟩
         else none, q.2.2.2)
    else (none, []) := by
  rfl

theorem truthyOpt_getD (x : Option String) (h : truthyOpt x = true) :
    (x.getD "").isEmpty = false := by
  cases x with
  | none => exact absurd h (by decide)
  | some s =>
    rw [Option.getD_some]
    have h2 : (!s.isEmpty) = true := h
    cases he : s.isEmpty
    · rfl
    · rw [he] at h2
      exact absurd h2 (by decide)

/-- A resolved unit only appears on a Control port and has non-empty parts. -/
theorem computeUnits_some (pn : String) (types : List String)
    (uURI uL uR uS : Option String) (u : UnitSpec)
    (h : (computeUnits pn types uURI uL uR uS).1 = some u) :
    types.contains "Control" = true ∧
    u.label.isEmpty = false ∧ u.render.isEmpty = false ∧ u.symbol.isEmpty = false := by
  rw [computeUnits_eq] at h
  by_cases hctl : types.contains "Control" = true
  · rw [if_pos hctl] at h
    refine ⟨hctl, ?_⟩
    cases uURI with
    | none => exact absurd h (by simp)
    | some uuri =>
      dsimp only at h
      split at h
      · rename_i hcond
        injection h with h
        subst h
        simp only [Bool.and_eq_true] at hcond
        obtain ⟨⟨h1, h2⟩, h3⟩ := hcond
        exact ⟨truthyOpt_getD _ h1, truthyOpt_getD _ h2, truthyOpt_getD _ h3⟩
      · exact absurd h (by simp)
  · rw [if_neg hctl] at h
    exact absurd h (by simp)

/-- Re-resolving the unit facts corresponding to a resolved unit (a custom
URI carrying the unit's own label/render/symbol) reproduces the unit. -/
theorem computeUnits_roundtrip (pn pn' : String) (types types' : List String)
    (uURI uL uR uS : Option String)
    (hctl : types'.contains "Control" = types.contains "Control") :
    (computeUnits pn' types'
      ((computeUnits pn types uURI uL uR uS).1.map (fun _ => "urn:unit"))
      ((computeUnits pn types uURI uL uR uS).1.map (fun u => u.label))
      ((computeUnits pn types uURI uL uR uS).1.map (fun u => u.render))
      ((computeUnits pn types uURI uL uR uS).1.map (fun u => u.symbol))).1 =
    (computeUnits pn types uURI uL uR uS).1 := by
  cases hres : (computeUnits pn types uURI uL uR uS).1 with
  | none =>
    dsimp only [Option.map_none']
    rw [computeUnits_eq]
    by_cases h : types'.contains "Control" = true
    · rw [if_pos h]
    · rw [if_neg h]
  | some u =>
    obtain ⟨hc, hl, hr, hs⟩ := computeUnits_some pn types uURI uL uR uS u hres
    dsimp only [Option.map_some']
    rw [computeUnits_eq]
    rw [if_pos (hctl.trans hc)]
    dsimp only [Option.map_some']
    have hq : unitParts pn' "urn:unit" (some u.label) (some u.render) (some u.symbol) =
        (some u.label, some u.render, some u.symbol, []) := by
      unfold unitParts
      rw [if_neg (by decide)]
      rfl
    rw [hq]
    dsimp only
    rw [show truthyOpt (some u.label) = true from by
          show (!u.label.isEmpty) = true
          rw [hl]
          rfl,
        show truthyOpt (some u.render) = true from by
          show (!u.render.isEmpty) = true
          rw [hr]
          rfl,
        show truthyOpt (some u.symbol) = true from by
          show (!u.symbol.isEmpty) = true
          rw [hs]
          rfl]
    rfl

/-- Every `getfirst` result is a stripped string. -/
theorem getfirst_strip (x : Option String) (s : String) (h : getfirst x = some s) :
    pyStrip s = s := by
  cases x with
  | none => exact absurd h (by simp [getfirst])
  | some t =>
    have h2 : pyStrip t = s := by
      simpa [getfirst] using h
    rw [← h2]
    exact pyStrip_idempotent t

theorem isEmpty_false_of_ne (s : String) (h : s ≠ "") : s.isEmpty = false := by
  cases he : s.isEmpty
  · rfl
  · exact absurd ((String.isEmpty_iff s).mp he) h

/-- Every string produced by the range-steps `or`-chain is stripped. -/
theorem pyOr_getfirst_strip (a b : Option String) (s : String)
    (h : pyOr (getfirst a) (getfirst b) = some s) : pyStrip s = s := by
  cases a with
  | none => exact getfirst_strip b s h
  | some t =>
    rw [show getfirst (some t) = some (pyStrip t) from rfl] at h
    unfold pyOr at h
    dsimp only at h
    by_cases he : (pyStrip t).isEmpty = true
    · rw [if_pos he] at h
      exact getfirst_strip b s h
    · rw [if_neg he] at h
      injection h with h
      rw [← h]
      exact pyStrip_idempotent t

/-- Re-deriving the range-steps entry from the refact facts reproduces it. -/
theorem rangeSteps_roundtrip (rs : Option String)
    (hst : ∀ s, rs = some s → pyStrip s = s) :
    pyOr (getfirst (refactsModRangeSteps rs)) (getfirst (refactsPpropsRangeSteps rs)) = rs := by
  cases rs with
  | none => rfl
  | some s =>
    unfold refactsModRangeSteps refactsPpropsRangeSteps
    dsimp only
    by_cases hs : s = ""
    · subst hs
      rfl
    · rw [if_neg hs, if_neg hs]
      rw [show getfirst (some s) = some (pyStrip s) from rfl]
      rw [hst s rfl]
      unfold pyOr
      dsimp only
      rw [if_neg (by rw [isEmpty_false_of_ne s hs]; exact Bool.false_ne_true)]

/-- Every computed type tag is free of `#`. -/
theorem portTypes_no_hash (port : RawPort) :
    ∀ t ∈ portTypes port, ∀ c ∈ t.data, c ≠ '#' := by
  have hbase : ∀ t, t ∈ port.rdfTypes.map (fun t => strDropRight (afterLastHash t) 4) →
      ∀ c ∈ t.data, c ≠ '#' := by
    intro t' ht' c' hc'
    obtain ⟨t0, ht0, hteq⟩ := List.mem_map.mp ht'
    rw [← hteq] at hc'
    have hc2 : c' ∈ (afterLastHash t0).data.take ((afterLastHash t0).data.length - 4) := hc'
    exact afterLastHash_no_hash t0 c' (List.take_subset _ _ hc2)
  intro t ht c hc
  unfold portTypes at ht
  dsimp only at ht
  split at ht
  · rcases List.mem_append.mp ht with hmem | hmem
    · exact hbase t hmem c hc
    · have ht2 : t = "MIDI" := by simpa using hmem
      subst ht2
      have hc2 : c ∈ ['M', 'I', 'D', 'I'] := hc
      fin_cases hc2 <;> decide
  · exact hbase t ht c hc

/-- Re-deriving the type tags from refact RDF types reproduces them. -/
theorem portTypes_refactsPort (info : PortInfo) (types : List String)
    (hnh : ∀ t ∈ types, ∀ c ∈ t.data, c ≠ '#') :
    portTypes (refactsPort info types) = types := by
  unfold portTypes
  rw [show (refactsPort info types).rdfTypes = types.map (fun t => "#" ++ t ++ "Port") from rfl,
      show (refactsPort info types).supportsMidiEvent = false from rfl]
  dsimp only
  rw [List.map_map]
  have hmap : types.map ((fun t => strDropRight (afterLastHash t) 4) ∘
      (fun t => "#" ++ t ++ "Port")) = types.map id := by
    refine List.map_congr_left ?_
    intro t ht
    exact parseType_roundtrip t (hnh t ht)
  rw [hmap, List.map_id]
  rw [Bool.and_false, Bool.false_and]
  rw [if_neg Bool.false_ne_true]

/-- The computed property list is sorted. -/
theorem portProperties_sorted (port : RawPort) :
    List.Pairwise strLe (portProperties port) :=
  pySortedStrs_sorted _

/-- Every computed property tag is free of `#`. -/
theorem portProperties_no_hash (port : RawPort) :
    ∀ t ∈ portProperties port, ∀ c ∈ t.data, c ≠ '#' := by
  intro t ht c hc
  have ht' : t ∈ List.insertionSort strLe (port.portProps.map afterLastHash) := ht
  have hmem : t ∈ port.portProps.map afterLastHash :=
    (List.perm_insertionSort strLe (port.portProps.map afterLastHash)).mem_iff.mp ht'
  obtain ⟨t0, _, hteq⟩ := List.mem_map.mp hmem
  rw [← hteq] at hc
  exact afterLastHash_no_hash t0 c hc

/-- Re-deriving the property tags from refact facts reproduces a sorted,
hash-free property list. -/
theorem portProperties_refactsPort (info : PortInfo) (types : List String)
    (hsorted : List.Pairwise strLe info.properties)
    (hnh : ∀ t ∈ info.properties, ∀ c ∈ t.data, c ≠ '#') :
    portProperties (refactsPort info types) = info.properties := by
  unfold portProperties pySortedStrs
  rw [show (refactsPort info types).portProps = info.properties.map (fun t => "#" ++ t) from rfl]
  rw [List.map_map]
  have hmap : info.properties.map (afterLastHash ∘ (fun t => "#" ++ t)) =
      info.properties.map id := by
    refine List.map_congr_left ?_
    intro t ht
    exact afterLastHash_hash_append t (hnh t ht)
  rw [hmap, List.map_id]
  exact List.Sorted.insertionSort_eq hsorted

theorem fst_shortName_match (pn : String) (x : Option String) :
    (match x with
     | none => (strTake pn 16, ([] : List String))
     | some s => (s, if 16 < strLen s then
         ["port '" ++ pn ++ "' short name has more than 16 characters"] else [])).1 =
    (match x with | none => strTake pn 16 | some s => s) := by
  cases x <;> rfl

/-- Full inversion of a successful `_get_port_info`: every descriptor field is
determined by the raw port facts. -/
theorem _get_port_info_full_inv (ctx : Ctx) (port : RawPort) (ctx' : Ctx)
    (types : List String) (info : PortInfo)
    (hok : _get_port_info ctx port = .ok (ctx', types, info)) :
    ∃ pn ps,
      port.name = some pn ∧ port.symbol = some ps ∧
      types = portTypes port ∧
      info.name = pn ∧ info.symbol = ps ∧
      info.comment = getfirst port.comment ∧
      info.designation = getfirst port.designation ∧
      info.rangeSteps = pyOr (getfirst port.modRangeSteps) (getfirst port.ppropsRangeSteps) ∧
      info.shortName = (match getfirst port.shortName with
        | none => strTake pn 16
        | some s => s) ∧
      info.index = none ∧
      info.units = (computeUnits pn (portTypes port) port.unitURI port.unitLabel
        port.unitRender port.unitSymbol).1 ∧
      (((portTypes port).contains "Control" || (portTypes port).contains "CV") = true →
        info.ranges = some (computeRanges pn (portTypes port) (portProperties port)
          (getfirst port.designation) port.rdefault port.rmin port.rmax).1 ∧
        info.scalePoints = (computeScalePoints pn ((portProperties port).contains "integer")
          (computeRanges pn (portTypes port) (portProperties port)
            (getfirst port.designation) port.rdefault port.rmin port.rmax).1
          port.scalePoints).1 ∧
        ∃ e6, enumerationCheck pn (portProperties port)
          ((computeScalePoints pn ((portProperties port).contains "integer")
            (computeRanges pn (portTypes port) (portProperties port)
              (getfirst port.designation) port.rdefault port.rmin port.rmax).1
            port.scalePoints).1) = .ok (info.properties, e6)) ∧
      (¬ ((portTypes port).contains "Control" || (portTypes port).contains "CV") = true →
        info.ranges = none ∧ info.scalePoints = .initList ∧
        info.properties = portProperties port) := by
  unfold _get_port_info at hok
  cases hn : port.name with
  | none => rw [hn] at hok; exact absurd hok (by simp)
  | some pn =>
    rw [hn] at hok
    cases hs : port.symbol with
    | none => rw [hs] at hok; exact absurd hok (by simp)
    | some ps =>
      rw [hs] at hok
      dsimp only at hok
      split at hok
      · rename_i hgate
        cases henum : enumerationCheck pn (portProperties port)
            (computeScalePoints pn ((portProperties port).contains "integer")
              (computeRanges pn (portTypes port) (portProperties port)
                (getfirst port.designation) port.rdefault port.rmin port.rmax).1
              port.scalePoints).1 with
        | error e => rw [henum] at hok; exact absurd hok (by simp)
        | ok pe =>
          rw [henum] at hok
          obtain ⟨props2, errs6⟩ := pe
          dsimp only at hok
          injection hok with h1
          injection h1 with hctx h2
          injection h2 with hty hinfo
          refine ⟨pn, ps, rfl, rfl, hty.symm, ?_, ?_, ?_, ?_, ?_, ?_, ?_, ?_, ?_, ?_⟩
          · rw [← hinfo]
          · rw [← hinfo]
          · rw [← hinfo]
          · rw [← hinfo]
          · rw [← hinfo]
          · rw [← hinfo]
            exact fst_shortName_match pn (getfirst port.shortName)
          · rw [← hinfo]
          · rw [← hinfo]
          · intro _
            rw [← hinfo]
            exact ⟨rfl, rfl, errs6, henum⟩
          · intro hneg
            exact absurd hgate hneg
      · rename_i hgate
        injection hok with h1
        injection h1 with hctx h2
        injection h2 with hty hinfo
        refine ⟨pn, ps, rfl, rfl, hty.symm, ?_, ?_, ?_, ?_, ?_, ?_, ?_, ?_, ?_, ?_⟩
        · rw [← hinfo]
        · rw [← hinfo]
        · rw [← hinfo]
        · rw [← hinfo]
        · rw [← hinfo]
        · rw [← hinfo]
          exact fst_shortName_match pn (getfirst port.shortName)
        · rw [← hinfo]
        · rw [← hinfo]
        · intro hpos
          exact absurd hpos hgate
        · intro _
          rw [← hinfo]
          exact ⟨rfl, rfl, rfl⟩


/-- Re-running `_get_port_info` on the raw facts corresponding to a
successfully extracted port descriptor reproduces the same type tags and the
same descriptor (the diagnostics and registries of the context may differ),
provided the port declared the `enumeration` flag at most once. -/
theorem _get_port_info_roundtrip (ctx ctx2 : Ctx) (port : RawPort) (ctx1 : Ctx)
    (types : List String) (info : PortInfo)
    (hwf : (portProperties port).count "enumeration" ≤ 1)
    (hok : _get_port_info ctx port = .ok (ctx1, types, info)) :
    ∃ ctx', _get_port_info ctx2 (refactsPort info types) = .ok (ctx', types, info) := by
  obtain ⟨pn, ps, hn, hs, hty, hiname, hisym, hicomment, hidesig, hirs, hishort, hiidx,
    hiunits, hctl, hnctl⟩ := _get_port_info_full_inv ctx port ctx1 types info hok
  have hnh : ∀ t ∈ types, ∀ c ∈ t.data, c ≠ '#' := by
    rw [hty]
    exact portTypes_no_hash port
  have hty2 : portTypes (refactsPort info types) = types := portTypes_refactsPort info types hnh
  have hpropcases : info.properties = portProperties port ∨
      info.properties = (portProperties port).erase "enumeration" := by
    by_cases hg : ((portTypes port).contains "Control" || (portTypes port).contains "CV") = true
    · obtain ⟨-, -, e6, henum⟩ := hctl hg
      exact enumerationCheck_props pn (portProperties port) _ info.properties e6 henum
    · exact Or.inl (hnctl hg).2.2
  have hpsorted : List.Pairwise strLe info.properties := by
    rcases hpropcases with he | he
    · rw [he]
      exact portProperties_sorted port
    · rw [he]
      exact (portProperties_sorted port).sublist (List.erase_sublist _ _)
  have hpnh : ∀ t ∈ info.properties, ∀ c ∈ t.data, c ≠ '#' := by
    rcases hpropcases with he | he
    · rw [he]
      exact portProperties_no_hash port
    · rw [he]
      intro t ht c hc
      exact portProperties_no_hash port t (List.mem_of_mem_erase ht) c hc
  have hprops2 : portProperties (refactsPort info types) = info.properties :=
    portProperties_refactsPort info types hpsorted hpnh
  have hint : info.properties.contains "integer" = (portProperties port).contains "integer" := by
    rcases hpropcases with he | he
    · rw [he]
    · rw [he]
      exact contains_erase_ne _ "enumeration" "integer" (by decide)
  have hsr : info.properties.contains "sampleRate" =
      (portProperties port).contains "sampleRate" := by
    rcases hpropcases with he | he
    · rw [he]
    · rw [he]
      exact contains_erase_ne _ "enumeration" "sampleRate" (by decide)
  have hc2 : getfirst info.comment = info.comment := by
    rw [hicomment]
    exact getfirst_idempotent _
  have hd2 : getfirst info.designation = info.designation := by
    rw [hidesig]
    exact getfirst_idempotent _
  have hstrip_rs : ∀ s, info.rangeSteps = some s → pyStrip s = s := by
    intro s hsx
    rw [hirs] at hsx
    exact pyOr_getfirst_strip _ _ s hsx
  have hrs2 : pyOr (getfirst (refactsModRangeSteps info.rangeSteps))
      (getfirst (refactsPpropsRangeSteps info.rangeSteps)) = info.rangeSteps :=
    rangeSteps_roundtrip info.rangeSteps hstrip_rs
  have hstripped : info.shortName ≠ strTake info.name 16 →
      pyStrip info.shortName = info.shortName := by
    intro hshort
    cases hg0 : getfirst port.shortName with
    | none =>
      rw [hg0] at hishort
      dsimp only at hishort
      rw [hishort, hiname] at hshort
      exact absurd rfl hshort
    | some s0 =>
      rw [hg0] at hishort
      dsimp only at hishort
      rw [hishort]
      exact getfirst_strip port.shortName s0 hg0
  have hshortEq : ∃ e2 : List String, (match getfirst (refactsPort info types).shortName with
      | none => (strTake info.name 16, ([] : List String))
      | some s => (s, if 16 < strLen s then
          ["port '" ++ info.name ++ "' short name has more than 16 characters"] else [])) =
      (info.shortName, e2) := by
    by_cases hshort : info.shortName = strTake info.name 16
    · refine ⟨[], ?_⟩
      rw [show (refactsPort info types).shortName =
          (if info.shortName = strTake info.name 16 then none else some info.shortName) from rfl]
      rw [if_pos hshort]
      rw [show getfirst (none : Option String) = none from rfl]
      dsimp only
      rw [← hshort]
    · refine ⟨if 16 < strLen info.shortName then
          ["port '" ++ info.name ++ "' short name has more than 16 characters"] else [], ?_⟩
      rw [show (refactsPort info types).shortName =
          (if info.shortName = strTake info.name 16 then none else some info.shortName) from rfl]
      rw [if_neg hshort]
      rw [show getfirst (some info.shortName) = some (pyStrip info.shortName) from rfl]
      rw [hstripped hshort]
  obtain ⟨e2, hshortEq⟩ := hshortEq
  unfold _get_port_info
  rw [show (refactsPort info types).name = some info.name from rfl]
  dsimp only
  rw [show (refactsPort info types).symbol = some info.symbol from rfl]
  dsimp only
  rw [show (refactsPort info types).oldShortName = false from rfl]
  rw [show (refactsPort info types).comment = info.comment from rfl]
  rw [show (refactsPort info types).designation = info.designation from rfl]
  rw [show (refactsPort info types).modRangeSteps =
      refactsModRangeSteps info.rangeSteps from rfl]
  rw [show (refactsPort info types).ppropsRangeSteps =
      refactsPpropsRangeSteps info.rangeSteps from rfl]
  rw [hrs2, hc2, hd2, hty2, hprops2]
  rw [hshortEq]
  dsimp only
  by_cases hgate : (types.contains "Control" || types.contains "CV") = true
  case pos =>
    have hgateP : ((portTypes port).contains "Control" ||
        (portTypes port).contains "CV") = true := by
      rw [← hty]
      exact hgate
    obtain ⟨hranges, hsp, e6, henum⟩ := hctl hgateP
    rw [if_pos hgate]
    rw [show (refactsPort info types).rdefault =
        info.ranges.map (fun rg => ratLit (info.properties.contains "integer") rg.default)
        from rfl]
    rw [show (refactsPort info types).rmin =
        info.ranges.map (fun rg => ratLit (info.properties.contains "integer") rg.minimum)
        from rfl]
    rw [show (refactsPort info types).rmax =
        info.ranges.map (fun rg => ratLit (info.properties.contains "integer") rg.maximum)
        from rfl]
    rw [show (refactsPort info types).scalePoints =
        refactsSP (info.properties.contains "integer") info.scalePoints from rfl]
    rw [show (refactsPort info types).unitURI = info.units.map (fun _ => "urn:unit") from rfl]
    rw [show (refactsPort info types).unitLabel = info.units.map (fun u => u.label) from rfl]
    rw [show (refactsPort info types).unitRender = info.units.map (fun u => u.render) from rfl]
    rw [show (refactsPort info types).unitSymbol = info.units.map (fun u => u.symbol) from rfl]
    rw [hranges, hsp, hiunits]
    dsimp only [Option.map_some']
    rw [hint]
    rw [computeRanges_roundtrip pn (portTypes port) (portProperties port)
      (getfirst port.designation) port.rdefault port.rmin port.rmax
      info.name types info.properties info.designation hint hsr]
    rw [computeScalePoints_roundtrip pn info.name ((portProperties port).contains "integer")
      (computeRanges pn (portTypes port) (portProperties port)
        (getfirst port.designation) port.rdefault port.rmin port.rmax).1 port.scalePoints]
    rw [← hsp]
    obtain ⟨errs6', henum2⟩ := enumerationCheck_roundtrip pn info.name (portProperties port)
      ((computeScalePoints pn ((portProperties port).contains "integer")
        (computeRanges pn (portTypes port) (portProperties port)
          (getfirst port.designation) port.rdefault port.rmin port.rmax).1
        port.scalePoints).1) info.properties e6 hwf henum
    rw [← hsp] at henum2
    rw [henum2]
    dsimp only
    rw [computeUnits_roundtrip pn info.name (portTypes port) types port.unitURI
      port.unitLabel port.unitRender port.unitSymbol (by rw [hty])]
    rw [← hiunits, ← hranges, ← hiidx]
    exact ⟨_, rfl⟩
  case neg =>
    have hgateP : ¬ ((portTypes port).contains "Control" ||
        (portTypes port).contains "CV") = true := by
      rw [← hty]
      exact hgate
    obtain ⟨hranges, hsp, hprops⟩ := hnctl hgateP
    rw [if_neg hgate]
    rw [show (refactsPort info types).unitURI = info.units.map (fun _ => "urn:unit") from rfl]
    rw [show (refactsPort info types).unitLabel = info.units.map (fun u => u.label) from rfl]
    rw [show (refactsPort info types).unitRender = info.units.map (fun u => u.render) from rfl]
    rw [show (refactsPort info types).unitSymbol = info.units.map (fun u => u.symbol) from rfl]
    rw [hiunits]
    rw [computeUnits_roundtrip pn info.name (portTypes port) types port.unitURI
      port.unitLabel port.unitRender port.unitSymbol (by rw [hty])]
    rw [← hiunits, ← hranges, ← hsp, ← hiidx]
    exact ⟨_, rfl⟩

/-- The type tags and descriptor of a successful `_get_port_info` do not
depend on the incoming context (only the diagnostics and registries do). -/
theorem _get_port_info_ctx_irrel (ctx ctx2 : Ctx) (port : RawPort) (ctx1 : Ctx)
    (types : List String) (info : PortInfo)
    (hok : _get_port_info ctx port = .ok (ctx1, types, info)) :
    ∃ ctx', _get_port_info ctx2 port = .ok (ctx', types, info) := by
  unfold _get_port_info at hok ⊢
  cases hn : port.name with
  | none => rw [hn] at hok; exact absurd hok (by simp)
  | some pn =>
    rw [hn] at hok
    cases hs : port.symbol with
    | none => rw [hs] at hok; exact absurd hok (by simp)
    | some ps =>
      rw [hs] at hok
      dsimp only at hok ⊢
      split at hok
      · rename_i hgate
        rw [if_pos hgate]
        cases henum : enumerationCheck pn (portProperties port)
            (computeScalePoints pn ((portProperties port).contains "integer")
              (computeRanges pn (portTypes port) (portProperties port)
                (getfirst port.designation) port.rdefault port.rmin port.rmax).1
              port.scalePoints).1 with
        | error e => rw [henum] at hok; exact absurd hok (by simp)
        | ok pe =>
          rw [henum] at hok
          obtain ⟨props2, errs6⟩ := pe
          dsimp only at hok ⊢
          injection hok with h1
          injection h1 with hctx h2
          injection h2 with hty hinfo
          rw [hinfo, hty]
          exact ⟨_, rfl⟩
      · rename_i hgate
        rw [if_neg hgate]
        injection hok with h1
        injection h1 with hctx h2
        injection h2 with hty hinfo
        rw [hinfo, hty]
        exact ⟨_, rfl⟩

/-- The raw port facts corresponding to the normalized descriptor of a raw
port (computed against an empty registry context, which the descriptor does
not depend on); a port the pass rejects is kept unchanged. -/
def refactsOnePort (p : RawPort) : RawPort :=
  match _get_port_info ⟨[], [], [], []⟩ p with
  | .ok (_, types, info) => refactsPort info types
  | .error _ => p

/-- The classification loop reproduces the ports mapping when re-run on the
refacted port list, for any starting context. -/
theorem portsGo_roundtrip :
    ∀ (rs : List RawPort) (ctx ctx2 : Ctx) (d : List (String × PortsIO)) (i : Nat)
      (ctx1 : Ctx) (D : List (String × PortsIO)),
      (∀ p ∈ rs, (portProperties p).count "enumeration" ≤ 1) →
      portsGo ctx d i rs = .ok (ctx1, D) →
      ∃ ctx', portsGo ctx2 d i (rs.map refactsOnePort) = .ok (ctx', D) := by
  intro rs
  induction rs with
  | nil =>
    intro ctx ctx2 d i ctx1 D hwf hok
    refine ⟨ctx2, ?_⟩
    injection hok with h1
    injection h1 with hctx hd
    rw [← hd]
    rfl
  | cons rp rest ih =>
    intro ctx ctx2 d i ctx1 D hwf hok
    unfold portsGo at hok
    cases hgp : _get_port_info ctx rp with
    | error e => rw [hgp] at hok; exact absurd hok (by simp)
    | ok r =>
      rw [hgp] at hok
      obtain ⟨ctxA, types, info0⟩ := r
      dsimp only at hok
      obtain ⟨ctxE, hE⟩ := _get_port_info_ctx_irrel ctx ⟨[], [], [], []⟩ rp ctxA types info0 hgp
      have hrefact : refactsOnePort rp = refactsPort info0 types := by
        unfold refactsOnePort
        rw [hE]
      obtain ⟨ctxB, hB⟩ := _get_port_info_roundtrip ctx ctx2 rp ctxA types info0
        (hwf rp (List.mem_cons_self rp rest)) hgp
      rw [List.map_cons]
      unfold portsGo
      rw [hrefact, hB]
      dsimp only
      split at hok
      · rename_i hio
        rw [if_pos hio]
        exact ih ctxA ctxB _ (i + 1) ctx1 D
          (fun p hp => hwf p (List.mem_cons_of_mem rp hp)) hok
      · rename_i hio
        exact absurd hok (by simp)

/-! ## C9: idempotence of the normalization pass -/

def cxC9Port : RawPort :=
  { name := some "Gain", symbol := some "gain", shortName := none, oldShortName := false,
    rdfTypes := ["http://lv2plug.in/ns/lv2core#InputPort",
                 "http://lv2plug.in/ns/lv2core#ControlPort"],
    bufferType := none, supportsMidiEvent := false, comment := none, designation := none,
    modRangeSteps := none, ppropsRangeSteps := none, portProps := [],
    rdefault := none, rmin := some (.flt 5), rmax := some (.flt 2),
    scalePoints := none,
    unitURI := none, unitLabel := none, unitRender := none, unitSymbol := none }

def cxC9Plugin : RawPlugin :=
  { uri := some "urn:cx:c9", name := some "Plug", modLabel := some "Plug",
    authorName := none, authorEmail := none, authorHomepage := none,
    binary := some "plug.so", brand := some "Brand", license := some "MIT",
    comment := some "A plug.", microver := [0], minorver := [2],
    categories := [], bundlePathRaw := "/b", dataDirs := [],
    ports := [cxC9Port], presets := [], readable := [], writable := [], propDefs := [] }

/-- The counterexample plugin with its port facts replaced by the raw facts
corresponding to the normalized port descriptor (the plugin-level facts are
already in normalized form). -/
def cxC9Plugin2 : RawPlugin :=
  { cxC9Plugin with ports := cxC9Plugin.ports.map refactsOnePort }

/-- C9 counterexample: re-running the full validation pass on the raw facts
corresponding to an already-normalized plugin does NOT reproduce the
diagnostics: the first run reports the corrections it applied (here a
min >= max correction and a missing default), the second run on the corrected
facts reports nothing, so the returned descriptors — which embed the sorted
diagnostics — differ even though the ports mapping is reproduced exactly. -/
theorem C9_idempotence_counterexample :
    (_get_plugin_info cxC9Plugin2).map PluginDescriptor.ports =
      (_get_plugin_info cxC9Plugin).map PluginDescriptor.ports ∧
    (_get_plugin_info cxC9Plugin).map PluginDescriptor.errors =
      .ok ["port 'Gain' is missing default value",
           "port 'Gain' minimum value is equal or higher than its maximum"] ∧
    (_get_plugin_info cxC9Plugin2).map PluginDescriptor.errors = .ok [] ∧
    _get_plugin_info cxC9Plugin2 ≠ _get_plugin_info cxC9Plugin := by
  refine ⟨?_, ?_, ?_, ?_⟩ <;> decide

/-- C9 (amended): the normalization pass is idempotent up to diagnostics at
the port-extraction level: for every plugin whose port pass succeeds,
re-running `_get_plugin_ports` (from any context) on the raw port facts
corresponding to the normalized port descriptors reproduces the entire ports
mapping exactly, provided each port declared the `enumeration` flag at most
once.  The diagnostics are NOT reproduced — corrections are not re-reported —
which is what breaks idempotence of the full returned descriptor. -/
theorem C9_ports_idempotent_amended (ctx ctx2 : Ctx) (rawPorts : List RawPort)
    (ctx1 : Ctx) (D : List (String × PortsIO))
    (hwf : ∀ p ∈ rawPorts, (portProperties p).count "enumeration" ≤ 1)
    (hok : _get_plugin_ports ctx rawPorts = .ok (ctx1, D)) :
    ∃ ctx', _get_plugin_ports ctx2 (rawPorts.map refactsOnePort) = .ok (ctx', D) := by
  unfold _get_plugin_ports at hok ⊢
  exact portsGo_roundtrip rawPorts ⟨ctx.errors, ctx.warnings, [], []⟩
    ⟨ctx2.errors, ctx2.warnings, [], []⟩ portsInit 0 ctx1 D hwf hok

/-- Witness for C9 (amended): the roundtrip applied to a concrete one-port
plugin whose range declaration needed correction. -/
theorem C9_ports_idempotent_amended_witness :
    (∀ p ∈ cxC9Plugin.ports, (portProperties p).count "enumeration" ≤ 1) ∧
    ∃ ctx1 D, _get_plugin_ports ⟨[], [], [], []⟩ cxC9Plugin.ports = .ok (ctx1, D) ∧
      ∃ ctx', _get_plugin_ports ⟨[], [], [], []⟩ (cxC9Plugin.ports.map refactsOnePort) =
        .ok (ctx', D) := by
  refine ⟨by decide, _, _, rfl, ?_⟩
  exact C9_ports_idempotent_amended ⟨[], [], [], []⟩ ⟨[], [], [], []⟩ cxC9Plugin.ports
    _ _ (by decide) rfl
